import Mathlib

/-!
Verification development for the AD-DL repository's data-generation and
configuration-IO utilities (`clinicadl/tools/data/generate_data.py` and
`clinicadl/tools/deep_learning/iotools.py`).

The Python code is shallowly embedded: attribute namespaces and JSON
dictionaries become key-nodup association lists of JSON-like values, the
dataset generators become trace-producing functions parameterised by an
environment of external-IO oracles, and Python exceptions become explicit
error values.
-/

set_option autoImplicit false

namespace ADDL

/-- A JSON-like scalar value, the value space of configuration records and
argparse namespaces as they appear in the side-car files. -/
inductive JVal where
  | null
  | bool (b : Bool)
  | num (n : Int)
  | str (s : String)
deriving DecidableEq, Repr

/-- A Python dictionary / attribute namespace: an insertion-ordered list of
key-value pairs. -/
abbrev Dict : Type := List (String × JVal)

/-- Lookup of a key, returning the first matching entry (Python `d[k]` /
`getattr`). -/
def dget : Dict → String → Option JVal
  | [], _ => none
  | (k1, v) :: d, k => if k = k1 then some v else dget d k

/-- Python `hasattr` / `k in d`. -/
def dhas (d : Dict) (k : String) : Bool := (dget d k).isSome

/-- Rewrite every entry whose key is `k` to value `v`, keeping positions. -/
def dsetAll : Dict → String → JVal → Dict
  | [], _, _ => []
  | (k1, w) :: d, k, v => (if k1 = k then (k, v) else (k1, w)) :: dsetAll d k v

/-- Python `d[k] = v` / `setattr`: replace in place when the key is present,
append otherwise. -/
def dset (d : Dict) (k : String) (v : JVal) : Dict :=
  if dhas d k then dsetAll d k v else d ++ [(k, v)]

/-- Python `del d[k]` / `delattr` (total version; the sources always guard
deletion with a presence check). -/
def ddel : Dict → String → Dict
  | [], _ => []
  | (k1, v) :: d, k => if k1 = k then ddel d k else (k1, v) :: ddel d k

/-- The keys of a dictionary, in order. -/
def dkeys (d : Dict) : List String := d.map Prod.fst

theorem dget_none_of_dhas_false {d : Dict} {k : String} (h : dhas d k = false) :
    dget d k = none := by
  unfold dhas at h
  cases hd : dget d k with
  | none => rfl
  | some w => rw [hd] at h; simp at h

theorem dhas_true_of_dget_some {d : Dict} {k : String} {v : JVal}
    (h : dget d k = some v) : dhas d k = true := by
  unfold dhas; rw [h]; rfl

theorem dget_append_of_some {a : Dict} {k : String} {v : JVal} (b : Dict)
    (h : dget a k = some v) : dget (a ++ b) k = some v := by
  induction a with
  | nil => simp [dget] at h
  | cons p rest ih =>
    obtain ⟨k1, w⟩ := p
    by_cases hk : k = k1
    · simp [dget, hk] at h ⊢; exact h
    · simp [dget, hk] at h ⊢; exact ih h

theorem dget_append_of_none {a : Dict} {k : String} (b : Dict)
    (h : dget a k = none) : dget (a ++ b) k = dget b k := by
  induction a with
  | nil => simp
  | cons p rest ih =>
    obtain ⟨k1, w⟩ := p
    by_cases hk : k = k1
    · simp [dget, hk] at h
    · simp [dget, hk] at h ⊢; exact ih h

theorem dget_cons_eq (d : Dict) (k : String) (v : JVal) :
    dget ((k, v) :: d) k = some v := by
  simp [dget]

theorem dget_cons_ne (d : Dict) (k1 k2 : String) (v : JVal) (h : k2 ≠ k1) :
    dget ((k1, v) :: d) k2 = dget d k2 := by
  simp [dget, h]

theorem dhas_cons_eq (d : Dict) (k : String) (v : JVal) :
    dhas ((k, v) :: d) k = true := by
  simp [dhas, dget]

theorem dhas_cons_ne (d : Dict) (k1 k2 : String) (v : JVal) (h : k2 ≠ k1) :
    dhas ((k1, v) :: d) k2 = dhas d k2 := by
  simp [dhas, dget, h]

theorem dsetAll_cons_eq (d : Dict) (k : String) (w v : JVal) :
    dsetAll ((k, w) :: d) k v = (k, v) :: dsetAll d k v := by
  simp [dsetAll]

theorem dsetAll_cons_ne (d : Dict) (k1 k : String) (w v : JVal) (h : k1 ≠ k) :
    dsetAll ((k1, w) :: d) k v = (k1, w) :: dsetAll d k v := by
  simp [dsetAll, h]

theorem ddel_cons_eq (d : Dict) (k : String) (v : JVal) :
    ddel ((k, v) :: d) k = ddel d k := by
  simp [ddel]

theorem ddel_cons_ne (d : Dict) (k1 k : String) (v : JVal) (h : k1 ≠ k) :
    ddel ((k1, v) :: d) k = (k1, v) :: ddel d k := by
  simp [ddel, h]

theorem dget_dsetAll (d : Dict) (k k2 : String) (v : JVal) :
    dget (dsetAll d k v) k2 =
      if k2 = k then (if dhas d k then some v else none) else dget d k2 := by
  induction d with
  | nil => simp [dsetAll, dget, dhas]
  | cons p rest ih =>
    obtain ⟨k1, w⟩ := p
    by_cases h1 : k1 = k
    · subst h1
      rw [dsetAll_cons_eq]
      by_cases h2 : k2 = k1
      · subst h2
        rw [dget_cons_eq, if_pos rfl, dhas_cons_eq, if_pos rfl]
      · rw [dget_cons_ne _ _ _ _ h2, ih, if_neg h2, if_neg h2,
          dget_cons_ne _ _ _ _ h2]
    · rw [dsetAll_cons_ne _ _ _ _ _ h1]
      by_cases h2 : k2 = k1
      · subst h2
        have hne : k2 ≠ k := fun hc => h1 (hc ▸ rfl)
        rw [dget_cons_eq, if_neg hne, dget_cons_eq]
      · rw [dget_cons_ne _ _ _ _ h2, ih, dhas_cons_ne _ _ _ _ (fun hc => h1 hc.symm),
          dget_cons_ne _ _ _ _ h2]

theorem dget_dset_self (d : Dict) (k : String) (v : JVal) :
    dget (dset d k v) k = some v := by
  unfold dset
  by_cases h : dhas d k
  · simp [h, dget_dsetAll]
  · simp only [h, if_neg, Bool.false_eq_true, not_false_eq_true, ite_false]
    rw [dget_append_of_none _ (dget_none_of_dhas_false (by simpa using h))]
    simp [dget]

theorem dget_dset_ne (d : Dict) (k k2 : String) (v : JVal) (h : k2 ≠ k) :
    dget (dset d k v) k2 = dget d k2 := by
  unfold dset
  by_cases hh : dhas d k
  · simp [hh, dget_dsetAll, h]
  · simp only [hh, Bool.false_eq_true, ite_false]
    cases hd : dget d k2 with
    | some w => rw [dget_append_of_some _ hd]
    | none =>
      rw [dget_append_of_none _ hd]
      simp [dget, h]

theorem dget_ddel (d : Dict) (k k2 : String) :
    dget (ddel d k) k2 = if k2 = k then none else dget d k2 := by
  induction d with
  | nil => simp [ddel, dget]
  | cons p rest ih =>
    obtain ⟨k1, w⟩ := p
    by_cases h1 : k1 = k
    · subst h1
      rw [ddel_cons_eq, ih]
      by_cases h2 : k2 = k1
      · rw [if_pos h2, if_pos h2]
      · rw [if_neg h2, if_neg h2, dget_cons_ne _ _ _ _ h2]
    · rw [ddel_cons_ne _ _ _ _ h1]
      by_cases h2 : k2 = k1
      · subst h2
        have hne : k2 ≠ k := fun hc => h1 (hc ▸ rfl)
        rw [dget_cons_eq, if_neg hne, dget_cons_eq]
      · rw [dget_cons_ne _ _ _ _ h2, ih, dget_cons_ne _ _ _ _ h2]

theorem ddel_of_none {d : Dict} {k : String} (h : dget d k = none) :
    ddel d k = d := by
  induction d with
  | nil => rfl
  | cons p rest ih =>
    obtain ⟨k1, w⟩ := p
    by_cases h1 : k = k1
    · simp [dget, h1] at h
    · simp [dget, h1] at h
      simp [ddel, Ne.symm h1, ih h]

theorem dget_none_of_not_mem {d : Dict} {k : String} (h : k ∉ dkeys d) :
    dget d k = none := by
  induction d with
  | nil => rfl
  | cons p rest ih =>
    obtain ⟨k1, w⟩ := p
    simp only [dkeys, List.map_cons, List.mem_cons, not_or] at h
    have ht : k ∉ dkeys rest := by simpa [dkeys] using h.2
    simp [dget, h.1, ih ht]

theorem not_mem_of_dget_none {d : Dict} {k : String} (h : dget d k = none) :
    k ∉ dkeys d := by
  induction d with
  | nil => simp [dkeys]
  | cons p rest ih =>
    obtain ⟨k1, w⟩ := p
    by_cases h1 : k = k1
    · simp [dget, h1] at h
    · simp [dget, h1] at h
      simp only [dkeys, List.map_cons, List.mem_cons, not_or]
      exact ⟨h1, fun hc => (ih h) (by simpa [dkeys] using hc)⟩

theorem dkeys_dsetAll (d : Dict) (k : String) (v : JVal) :
    dkeys (dsetAll d k v) = dkeys d := by
  induction d with
  | nil => rfl
  | cons p rest ih =>
    obtain ⟨k1, w⟩ := p
    by_cases h1 : k1 = k
    · subst h1; simp [dsetAll, dkeys] at ih ⊢; exact ih
    · simp [dsetAll, dkeys, h1] at ih ⊢; exact ih

theorem ddel_sublist (d : Dict) (k : String) : (ddel d k).Sublist d := by
  induction d with
  | nil => simp [ddel]
  | cons p rest ih =>
    obtain ⟨k1, w⟩ := p
    by_cases h1 : k1 = k
    · simp only [ddel, if_pos h1]
      exact ih.cons _
    · simp only [ddel, if_neg h1]
      exact ih.cons₂ _

theorem nodup_ddel {d : Dict} (k : String) (h : (dkeys d).Nodup) :
    (dkeys (ddel d k)).Nodup := by
  have hs : (dkeys (ddel d k)).Sublist (dkeys d) :=
    List.Sublist.map Prod.fst (ddel_sublist d k)
  exact h.sublist hs

theorem nodup_dset {d : Dict} (k : String) (v : JVal) (h : (dkeys d).Nodup) :
    (dkeys (dset d k v)).Nodup := by
  unfold dset
  by_cases hh : dhas d k
  · simp [hh, dkeys_dsetAll, h]
  · simp only [hh, Bool.false_eq_true, ite_false]
    have hk : k ∉ dkeys d :=
      not_mem_of_dget_none (dget_none_of_dhas_false (by simpa using hh))
    have he : dkeys (d ++ [(k, v)]) = dkeys d ++ [k] := by simp [dkeys]
    rw [he, List.nodup_append]
    refine ⟨h, List.nodup_singleton k, ?_⟩
    intro a ha hb
    simp at hb
    exact hk (hb ▸ ha)

theorem dsetAll_of_none {d : Dict} {k : String} (v : JVal)
    (h : dget d k = none) : dsetAll d k v = d := by
  induction d with
  | nil => rfl
  | cons p rest ih =>
    obtain ⟨k1, w⟩ := p
    by_cases h1 : k = k1
    · simp [dget, h1] at h
    · simp [dget, h1] at h
      simp [dsetAll, Ne.symm h1, ih h]

theorem dsetAll_self {d : Dict} {k : String} {v : JVal}
    (hnd : (dkeys d).Nodup) (h : dget d k = some v) : dsetAll d k v = d := by
  induction d with
  | nil => simp [dget] at h
  | cons p rest ih =>
    obtain ⟨k1, w⟩ := p
    rw [dkeys, List.map_cons, List.nodup_cons] at hnd
    by_cases h1 : k = k1
    · subst h1
      simp [dget] at h
      have hrest : dget rest k = none :=
        dget_none_of_not_mem (by simpa [dkeys] using hnd.1)
      simp [dsetAll, h, dsetAll_of_none _ hrest]
    · simp [dget, h1] at h
      have := ih (by simpa [dkeys] using hnd.2) h
      simp [dsetAll, Ne.symm h1, this]

theorem dset_self {d : Dict} {k : String} {v : JVal}
    (hnd : (dkeys d).Nodup) (h : dget d k = some v) : dset d k v = d := by
  unfold dset
  simp [dhas_true_of_dget_some h, dsetAll_self hnd h]

theorem dsetAll_dsetAll (d : Dict) (k : String) (a b : JVal) :
    dsetAll (dsetAll d k a) k b = dsetAll d k b := by
  induction d with
  | nil => rfl
  | cons p rest ih =>
    obtain ⟨k1, w⟩ := p
    by_cases h1 : k1 = k
    · subst h1
      rw [dsetAll_cons_eq, dsetAll_cons_eq, dsetAll_cons_eq, ih]
    · rw [dsetAll_cons_ne _ _ _ _ _ h1, dsetAll_cons_ne _ _ _ _ _ h1,
        dsetAll_cons_ne _ _ _ _ _ h1, ih]

theorem dsetAll_append (a b : Dict) (k : String) (v : JVal) :
    dsetAll (a ++ b) k v = dsetAll a k v ++ dsetAll b k v := by
  induction a with
  | nil => rfl
  | cons p rest ih =>
    obtain ⟨k1, w⟩ := p
    by_cases h1 : k1 = k
    · subst h1
      rw [List.cons_append, dsetAll_cons_eq, dsetAll_cons_eq, ih, List.cons_append]
    · rw [List.cons_append, dsetAll_cons_ne _ _ _ _ _ h1,
        dsetAll_cons_ne _ _ _ _ _ h1, ih, List.cons_append]

theorem dhas_dsetAll (d : Dict) (k k2 : String) (v : JVal) :
    dhas (dsetAll d k v) k2 = dhas d k2 := by
  show (dget (dsetAll d k v) k2).isSome = dhas d k2
  rw [dget_dsetAll]
  by_cases h2 : k2 = k
  · subst h2
    cases hb : dhas d k2
    · simp [hb]
    · simp [hb]
  · simp only [h2, ite_false]
    rfl

theorem dset_dset (d : Dict) (k : String) (a b : JVal) :
    dset (dset d k a) k b = dset d k b := by
  unfold dset
  by_cases hh : dhas d k
  · simp [hh, dhas_dsetAll, dsetAll_dsetAll]
  · simp only [hh, Bool.false_eq_true, ite_false]
    have hn : dget d k = none := dget_none_of_dhas_false (by simpa using hh)
    have h2 : dhas (d ++ [(k, a)]) k = true := by
      unfold dhas
      rw [dget_append_of_none _ hn]
      simp [dget]
    simp only [h2, ite_true]
    rw [dsetAll_append, dsetAll_of_none _ hn]
    have : dsetAll [(k, a)] k b = [(k, b)] := by
      rw [show ([(k, a)] : Dict) = (k, a) :: [] from rfl, dsetAll_cons_eq]
      rfl
    rw [this]

/-- A Python object's attribute namespace (or a parsed JSON record): a
dictionary whose keys are distinct. -/
structure Obj where
  entries : Dict
  nodup : (dkeys entries).Nodup

theorem Obj.eq_of_entries (a b : Obj) (h : a.entries = b.entries) : a = b := by
  cases a; cases b; cases h; rfl

instance : DecidableEq Obj := fun a b =>
  if h : a.entries = b.entries then isTrue (Obj.eq_of_entries a b h)
  else isFalse (fun he => h (congrArg Obj.entries he))

/-- The empty namespace. -/
def objEmpty : Obj := ⟨[], List.nodup_nil⟩

/-- `getattr o k` as an `Option`. -/
def oget (o : Obj) (k : String) : Option JVal := dget o.entries k

/-- `hasattr o k`. -/
def ohas (o : Obj) (k : String) : Bool := dhas o.entries k

/-- `setattr o k v`. -/
def oset (o : Obj) (k : String) (v : JVal) : Obj :=
  ⟨dset o.entries k v, nodup_dset k v o.nodup⟩

/-- `delattr o k`. -/
def odel (o : Obj) (k : String) : Obj :=
  ⟨ddel o.entries k, nodup_ddel k o.nodup⟩

theorem oget_oset_self (o : Obj) (k : String) (v : JVal) :
    oget (oset o k v) k = some v :=
  dget_dset_self o.entries k v

theorem oget_oset_ne (o : Obj) (k k2 : String) (v : JVal) (h : k2 ≠ k) :
    oget (oset o k v) k2 = oget o k2 :=
  dget_dset_ne o.entries k k2 v h

theorem oget_odel (o : Obj) (k k2 : String) :
    oget (odel o k) k2 = if k2 = k then none else oget o k2 :=
  dget_ddel o.entries k k2

theorem oset_self {o : Obj} {k : String} {v : JVal} (h : oget o k = some v) :
    oset o k v = o :=
  Obj.eq_of_entries _ _ (dset_self o.nodup h)

theorem oset_oset (o : Obj) (k : String) (a b : JVal) :
    oset (oset o k a) k b = oset o k b :=
  Obj.eq_of_entries _ _ (dset_dset o.entries k a b)

theorem ohas_eq_isSome (o : Obj) (k : String) : ohas o k = (oget o k).isSome := rfl

theorem ohas_true_of_oget_some {o : Obj} {k : String} {v : JVal}
    (h : oget o k = some v) : ohas o k = true :=
  dhas_true_of_dget_some h

theorem oget_none_of_ohas_false {o : Obj} {k : String} (h : ohas o k = false) :
    oget o k = none :=
  dget_none_of_dhas_false h

theorem ohas_false_of_oget_none {o : Obj} {k : String} (h : oget o k = none) :
    ohas o k = false := by
  rw [ohas_eq_isSome, h]
  rfl

theorem ohas_oset_ne (o : Obj) (k k2 : String) (v : JVal) (h : k2 ≠ k) :
    ohas (oset o k v) k2 = ohas o k2 := by
  rw [ohas_eq_isSome, ohas_eq_isSome, oget_oset_ne o k k2 v h]

theorem ohas_oset_self (o : Obj) (k : String) (v : JVal) :
    ohas (oset o k v) k = true := by
  rw [ohas_eq_isSome, oget_oset_self]
  rfl

/-! ## Embedding of `clinicadl/tools/deep_learning/iotools.py` -/

/-- Python truthiness of a JSON value, as used by `not options.use_cpu`. -/
def truthy : JVal → Bool
  | JVal.null => false
  | JVal.bool b => b
  | JVal.num n => n != 0
  | JVal.str s => !s.isEmpty

/-- Python `not v` for a JSON value. -/
def pyNot (v : JVal) : Bool := !truthy v

/-- Modelled from the spec: `set_default_dropout` lives in `clinicadl/cli.py`,
which is not under `src/`; the spec does not describe it. It is called right
after `read_json` defaults a missing `dropout` attribute to `None`, so it is
modelled minimally from its name and call site: it fills a default value when
`dropout` is `None` and leaves an already-set `dropout` unchanged. -/
def set_default_dropout (o : Obj) : Obj :=
  if oget o "dropout" = some JVal.null then oset o "dropout" (JVal.num 0) else o

/-- Lines 215-217 of `iotools.py`: default a missing `dropout` to `None`, then
call `set_default_dropout`. -/
def stepDropout (o : Obj) : Obj :=
  set_default_dropout (if ohas o "dropout" then o else oset o "dropout" JVal.null)

/-- Lines 219-220: map the old `preprocessing` names `mni`/`linear` to
`t1-volume`/`t1-linear`. Reading a missing `preprocessing` attribute raises
`AttributeError`, modelled as `Except.error`. -/
def stepPreproc (o : Obj) : Except Unit Obj :=
  match oget o "preprocessing" with
  | none => Except.error ()
  | some p =>
    if p = JVal.str "mni" then Except.ok (oset o "preprocessing" (JVal.str "t1-volume"))
    else if p = JVal.str "linear" then Except.ok (oset o "preprocessing" (JVal.str "t1-linear"))
    else Except.ok o

/-- Lines 222-224: rename `mri_plane` to `slice_direction`. -/
def stepMriPlane (o : Obj) : Obj :=
  match oget o "mri_plane" with
  | some v => odel (oset o "slice_direction" v) "mri_plane"
  | none => o

/-- Lines 226-228: a present `hippocampus_roi` key (whatever its value) sets
`mode` to `"roi"` and is deleted. -/
def stepHippo (o : Obj) : Obj :=
  if ohas o "hippocampus_roi" then
    odel (oset o "mode" (JVal.str "roi")) "hippocampus_roi"
  else o

/-- Lines 230-232: rename `pretrained_path` to `transfer_learning_path`. -/
def stepPretrainedPath (o : Obj) : Obj :=
  match oget o "pretrained_path" with
  | some v => odel (oset o "transfer_learning_path" v) "pretrained_path"
  | none => o

/-- Lines 234-236: rename `pretrained_difference` to
`transfer_learning_difference`. -/
def stepPretrainedDiff (o : Obj) : Obj :=
  match oget o "pretrained_difference" with
  | some v => odel (oset o "transfer_learning_difference" v) "pretrained_difference"
  | none => o

/-- Lines 238-239: `if options.mode == "subject": options.mode = "image"`,
given the current value `m` of `mode`. -/
def modeSubject (o : Obj) (m : JVal) : Obj :=
  if m = JVal.str "subject" then oset o "mode" (JVal.str "image") else o

/-- Lines 240-241: `if options.mode == "slice" and not hasattr(options,
"mode_task")`, given the re-read value `m1` of `mode`. -/
def modeSlice (o : Obj) (m1 : JVal) : Obj :=
  if m1 = JVal.str "slice" ∧ ohas o "mode_task" = false then
    oset o "mode_task" (JVal.str "cnn")
  else o

/-- Lines 242-245: the `patch`/`network_type` branch; `network_type` is
deleted whichever value it has. -/
def modePatch (o : Obj) (m1 : JVal) : Obj :=
  if m1 = JVal.str "patch" ∧ ohas o "network_type" = true then
    (if oget o "network_type" = some (JVal.str "multi") then
       odel (oset o "mode_task" (JVal.str "multicnn")) "network_type"
     else odel o "network_type")
  else o

/-- Lines 238-245: `mode` fixups. Reading a missing `mode` raises
`AttributeError`. The `slice` and `patch` branches re-read `options.mode`
after the possible `subject`-to-`image` rewrite, hence the re-computed
value. -/
def stepMode (o : Obj) : Except Unit Obj :=
  match oget o "mode" with
  | none => Except.error ()
  | some m =>
    Except.ok (modePatch (modeSlice (modeSubject o m)
        (if m = JVal.str "subject" then JVal.str "image" else m))
      (if m = JVal.str "subject" then JVal.str "image" else m))

/-- Lines 247-251: default `mode_task` from the presence of
`train_autoencoder`. -/
def stepModeTask (o : Obj) : Obj :=
  if ohas o "mode_task" then o
  else if ohas o "train_autoencoder" then oset o "mode_task" (JVal.str "autoencoder")
  else oset o "mode_task" (JVal.str "cnn")

/-- Lines 253-254: a present `use_cpu` sets `use_gpu` to its negation
(`use_cpu` itself is kept). -/
def stepUseCpu (o : Obj) : Obj :=
  match oget o "use_cpu" with
  | some v => oset o "use_gpu" (JVal.bool (pyNot v))
  | none => o

/-- Lines 256-257: a present `unnormalize` sets `minmaxnormalization` to its
negation. -/
def stepUnnormalize (o : Obj) : Obj :=
  match oget o "unnormalize" with
  | some v => oset o "minmaxnormalization" (JVal.bool (pyNot v))
  | none => o

/-- One `if hasattr(options, key): options.prepare_dl = getattr(options, key)`
conditional of lines 259-264. -/
def extrStep (key : String) (o : Obj) : Obj :=
  match oget o key with
  | some v => oset o "prepare_dl" v
  | none => o

/-- Lines 259-264: any of the `use_extracted_*` keys copies its value to
`prepare_dl` (later keys win). -/
def stepExtracted (o : Obj) : Obj :=
  extrStep "use_extracted_roi"
    (extrStep "use_extracted_patches" (extrStep "use_extracted_slices" o))

/-- Lines 214-266 of `iotools.py`: the retro-compatibility rename/derivation
pass applied by `read_json` after the assignment loop. -/
def legacyPass (o : Obj) : Except Unit Obj :=
  match stepPreproc (stepDropout o) with
  | Except.error e => Except.error e
  | Except.ok o1 =>
    match stepMode (stepPretrainedDiff (stepPretrainedPath (stepHippo (stepMriPlane o1)))) with
    | Except.error e => Except.error e
    | Except.ok o3 =>
      Except.ok (stepExtracted (stepUnnormalize (stepUseCpu (stepModeTask o3))))

/-- Line 196 of `iotools.py`. -/
def evaluation_parameters : List String := ["diagnosis_path", "input_dir", "diagnoses"]

/-- Line 206 of `iotools.py`: the computational options the loop intends to
skip. -/
def computational_options : List String := ["gpu", "num_workers", "num_threads"]

/-- Lines 204-212 of `iotools.py`, the body of the assignment loop. The first
conditional (`if key in ['gpu', 'num_workers', 'num_threads']: pass`) has an
empty body and is not chained to the second one, so it is recorded here but
has no effect on the result. -/
def assignStep (test : Bool) (o : Obj) (key : String) (item : JVal) : Obj :=
  let _skip := decide (key ∈ computational_options)
  if test = true ∧ key ∈ evaluation_parameters then o
  else oset o key item

/-- The `for key, item in json_data.items()` loop of `read_json`. -/
def applyItems (test : Bool) (o : Obj) : Dict → Obj
  | [] => o
  | (k, v) :: rest => applyItems test (assignStep test o k v) rest

/-- `read_json` (lines 185-266): update `options` from the JSON record, then
run the retro-compatibility pass. -/
def read_json (test : Bool) (options json : Obj) : Except Unit Obj :=
  legacyPass (applyItems test options json.entries)

/-- Remove a key when present (`if k in d: del d[k]`). -/
def popKey (o : Obj) (k : String) : Obj :=
  if ohas o k then odel o k else o

/-- `commandline_to_json` (lines 143-182): record the unknown arguments under
`unknown_arg`, then drop `func`, `caps_dir`, `tsv_path` and `output_dir`
before serialising. Only the serialised record content is modelled; the
directory creation and the file write carry no information used here. -/
def commandline_to_json (args : Obj) (unknown : JVal) : Obj :=
  popKey (popKey (popKey (popKey (oset args "unknown_arg" unknown) "func")
    "caps_dir") "tsv_path") "output_dir"

/-! ### Per-step lemmas for the retro-compatibility pass -/

theorem stepDropout_frame (o : Obj) (k : String) (h : k ≠ "dropout") :
    oget (stepDropout o) k = oget o k := by
  unfold stepDropout set_default_dropout
  by_cases h1 : ohas o "dropout"
  · simp only [h1, ite_true]
    by_cases h2 : oget o "dropout" = some JVal.null
    · simp [h2, oget_oset_ne, h]
    · simp [h2]
  · simp only [h1, Bool.false_eq_true, ite_false, oget_oset_self, ite_true]
    rw [oget_oset_ne _ _ _ _ h, oget_oset_ne _ _ _ _ h]

theorem stepDropout_dropout (o : Obj) :
    ∃ w, oget (stepDropout o) "dropout" = some w ∧ w ≠ JVal.null := by
  unfold stepDropout set_default_dropout
  by_cases h1 : ohas o "dropout"
  · simp only [h1, ite_true]
    by_cases h2 : oget o "dropout" = some JVal.null
    · exact ⟨JVal.num 0, by rw [if_pos h2, oget_oset_self], by simp⟩
    · rw [if_neg h2]
      cases ho : oget o "dropout" with
      | none => rw [ohas_eq_isSome, ho] at h1; simp at h1
      | some w => exact ⟨w, rfl, fun hc => h2 (by rw [ho, hc])⟩
  · simp only [h1, Bool.false_eq_true, ite_false, oget_oset_self, ite_true]
    exact ⟨JVal.num 0, rfl, by simp⟩

theorem stepDropout_id {o : Obj} {w : JVal} (h : oget o "dropout" = some w)
    (hw : w ≠ JVal.null) : stepDropout o = o := by
  unfold stepDropout set_default_dropout
  have h1 : ohas o "dropout" = true := ohas_true_of_oget_some h
  have h2 : ¬ oget o "dropout" = some JVal.null := by
    rw [h]; exact fun hc => hw (by injection hc)
  simp [h1, h2]

theorem stepPreproc_frame {o o1 : Obj} (hs : stepPreproc o = Except.ok o1)
    {k : String} (h : k ≠ "preprocessing") : oget o1 k = oget o k := by
  unfold stepPreproc at hs
  split at hs
  · exact absurd hs (by simp)
  · split at hs
    · cases hs; rw [oget_oset_ne _ _ _ _ h]
    · split at hs
      · cases hs; rw [oget_oset_ne _ _ _ _ h]
      · cases hs; rfl

theorem stepPreproc_preproc {o o1 : Obj} (hs : stepPreproc o = Except.ok o1) :
    ∃ p, oget o1 "preprocessing" = some p ∧ p ≠ JVal.str "mni" ∧ p ≠ JVal.str "linear" := by
  unfold stepPreproc at hs
  split at hs
  · exact absurd hs (by simp)
  · rename_i p hp
    split at hs
    · cases hs
      exact ⟨JVal.str "t1-volume", oget_oset_self _ _ _, by simp, by simp⟩
    · split at hs
      · cases hs
        exact ⟨JVal.str "t1-linear", oget_oset_self _ _ _, by simp, by simp⟩
      · cases hs
        rename_i hm hl
        exact ⟨p, hp, hm, hl⟩

theorem stepPreproc_id {o : Obj} {p : JVal} (h : oget o "preprocessing" = some p)
    (hm : p ≠ JVal.str "mni") (hl : p ≠ JVal.str "linear") :
    stepPreproc o = Except.ok o := by
  unfold stepPreproc
  rw [h]
  simp [hm, hl]

theorem stepMriPlane_frame (o : Obj) {k : String} (h1 : k ≠ "slice_direction")
    (h2 : k ≠ "mri_plane") : oget (stepMriPlane o) k = oget o k := by
  unfold stepMriPlane
  cases hp : oget o "mri_plane" with
  | none => rfl
  | some v => rw [oget_odel, if_neg h2, oget_oset_ne _ _ _ _ h1]

theorem stepMriPlane_none (o : Obj) : oget (stepMriPlane o) "mri_plane" = none := by
  unfold stepMriPlane
  cases hp : oget o "mri_plane" with
  | none => exact hp
  | some v => rw [oget_odel, if_pos rfl]

theorem stepMriPlane_set {o : Obj} {v : JVal} (h : oget o "mri_plane" = some v) :
    oget (stepMriPlane o) "slice_direction" = some v := by
  unfold stepMriPlane
  rw [h, oget_odel, if_neg (by simp), oget_oset_self]

theorem stepMriPlane_id {o : Obj} (h : oget o "mri_plane" = none) :
    stepMriPlane o = o := by
  unfold stepMriPlane
  rw [h]

theorem stepHippo_frame (o : Obj) {k : String} (h1 : k ≠ "mode")
    (h2 : k ≠ "hippocampus_roi") : oget (stepHippo o) k = oget o k := by
  unfold stepHippo
  by_cases hh : ohas o "hippocampus_roi"
  · rw [if_pos hh, oget_odel, if_neg h2, oget_oset_ne _ _ _ _ h1]
  · rw [if_neg hh]

theorem stepHippo_none (o : Obj) : oget (stepHippo o) "hippocampus_roi" = none := by
  unfold stepHippo
  by_cases hh : ohas o "hippocampus_roi"
  · rw [if_pos hh, oget_odel, if_pos rfl]
  · rw [if_neg hh]
    exact oget_none_of_ohas_false (by simpa using hh)

theorem stepHippo_mode {o : Obj} (h : ohas o "hippocampus_roi" = true) :
    oget (stepHippo o) "mode" = some (JVal.str "roi") := by
  unfold stepHippo
  rw [if_pos h, oget_odel, if_neg (by simp), oget_oset_self]

theorem stepHippo_id {o : Obj} (h : ohas o "hippocampus_roi" = false) :
    stepHippo o = o := by
  unfold stepHippo
  simp [h]

theorem stepPretrainedPath_frame (o : Obj) {k : String}
    (h1 : k ≠ "transfer_learning_path") (h2 : k ≠ "pretrained_path") :
    oget (stepPretrainedPath o) k = oget o k := by
  unfold stepPretrainedPath
  cases hp : oget o "pretrained_path" with
  | none => rfl
  | some v => rw [oget_odel, if_neg h2, oget_oset_ne _ _ _ _ h1]

theorem stepPretrainedPath_none (o : Obj) :
    oget (stepPretrainedPath o) "pretrained_path" = none := by
  unfold stepPretrainedPath
  cases hp : oget o "pretrained_path" with
  | none => exact hp
  | some v => rw [oget_odel, if_pos rfl]

theorem stepPretrainedPath_id {o : Obj} (h : oget o "pretrained_path" = none) :
    stepPretrainedPath o = o := by
  unfold stepPretrainedPath
  rw [h]

theorem stepPretrainedDiff_frame (o : Obj) {k : String}
    (h1 : k ≠ "transfer_learning_difference") (h2 : k ≠ "pretrained_difference") :
    oget (stepPretrainedDiff o) k = oget o k := by
  unfold stepPretrainedDiff
  cases hp : oget o "pretrained_difference" with
  | none => rfl
  | some v => rw [oget_odel, if_neg h2, oget_oset_ne _ _ _ _ h1]

theorem stepPretrainedDiff_none (o : Obj) :
    oget (stepPretrainedDiff o) "pretrained_difference" = none := by
  unfold stepPretrainedDiff
  cases hp : oget o "pretrained_difference" with
  | none => exact hp
  | some v => rw [oget_odel, if_pos rfl]

theorem stepPretrainedDiff_id {o : Obj} (h : oget o "pretrained_difference" = none) :
    stepPretrainedDiff o = o := by
  unfold stepPretrainedDiff
  rw [h]

theorem modeSubject_frame (o : Obj) (m : JVal) {k : String} (h : k ≠ "mode") :
    oget (modeSubject o m) k = oget o k := by
  unfold modeSubject
  split
  · rw [oget_oset_ne _ _ _ _ h]
  · rfl

theorem modeSubject_mode (o : Obj) (m : JVal) :
    oget (modeSubject o m) "mode" =
      if m = JVal.str "subject" then some (JVal.str "image") else oget o "mode" := by
  unfold modeSubject
  split
  · rw [oget_oset_self]
  · rfl

theorem modeSubject_id {o : Obj} {m : JVal} (h : m ≠ JVal.str "subject") :
    modeSubject o m = o := by
  unfold modeSubject
  rw [if_neg h]

theorem modeSlice_frame (o : Obj) (m1 : JVal) {k : String} (h : k ≠ "mode_task") :
    oget (modeSlice o m1) k = oget o k := by
  unfold modeSlice
  split
  · rw [oget_oset_ne _ _ _ _ h]
  · rfl

theorem modeSlice_mtask (o : Obj) (m1 : JVal) (h : ohas o "mode_task" = true) :
    modeSlice o m1 = o := by
  unfold modeSlice
  rw [if_neg (fun hc => by rw [h] at hc; exact absurd hc.2 (by simp))]

theorem modeSlice_id {o : Obj} {m1 : JVal} (h : m1 ≠ JVal.str "slice") :
    modeSlice o m1 = o := by
  unfold modeSlice
  rw [if_neg (fun hc => h hc.1)]

theorem modePatch_frame (o : Obj) (m1 : JVal) {k : String} (h1 : k ≠ "mode_task")
    (h2 : k ≠ "network_type") : oget (modePatch o m1) k = oget o k := by
  unfold modePatch
  split
  · split
    · rw [oget_odel, if_neg h2, oget_oset_ne _ _ _ _ h1]
    · rw [oget_odel, if_neg h2]
  · rfl

theorem modePatch_network (o : Obj) {m1 : JVal} (h : m1 = JVal.str "patch") :
    oget (modePatch o m1) "network_type" = none := by
  unfold modePatch
  by_cases hn : ohas o "network_type" = true
  · rw [if_pos ⟨h, hn⟩]
    split
    · rw [oget_odel, if_pos rfl]
    · rw [oget_odel, if_pos rfl]
  · rw [if_neg (fun hc => hn hc.2)]
    exact oget_none_of_ohas_false (by simpa using hn)

theorem modePatch_id_no_network {o : Obj} (m1 : JVal)
    (h : ohas o "network_type" = false) : modePatch o m1 = o := by
  unfold modePatch
  rw [if_neg (fun hc => by rw [h] at hc; exact absurd hc.2 (by simp))]

theorem modePatch_id {o : Obj} {m1 : JVal} (h : m1 ≠ JVal.str "patch") :
    modePatch o m1 = o := by
  unfold modePatch
  rw [if_neg (fun hc => h hc.1)]

theorem stepMode_frame {o o3 : Obj} (hs : stepMode o = Except.ok o3) {k : String}
    (h1 : k ≠ "mode") (h2 : k ≠ "mode_task") (h3 : k ≠ "network_type") :
    oget o3 k = oget o k := by
  unfold stepMode at hs
  split at hs
  · exact absurd hs (by simp)
  · cases hs
    rw [modePatch_frame _ _ h2 h3, modeSlice_frame _ _ h2, modeSubject_frame _ _ h1]

theorem stepMode_mode {o o3 : Obj} (hs : stepMode o = Except.ok o3) :
    ∃ m, oget o "mode" = some m ∧
      oget o3 "mode" = some (if m = JVal.str "subject" then JVal.str "image" else m) := by
  unfold stepMode at hs
  split at hs
  · exact absurd hs (by simp)
  · rename_i m heq
    cases hs
    refine ⟨m, heq, ?_⟩
    rw [modePatch_frame _ _ (by simp) (by simp), modeSlice_frame _ _ (by simp),
      modeSubject_mode]
    by_cases hsub : m = JVal.str "subject"
    · rw [if_pos hsub, if_pos hsub]
    · rw [if_neg hsub, if_neg hsub, heq]

theorem stepMode_eq {o : Obj} {m : JVal} (h : oget o "mode" = some m) :
    stepMode o = Except.ok (modePatch (modeSlice (modeSubject o m)
        (if m = JVal.str "subject" then JVal.str "image" else m))
      (if m = JVal.str "subject" then JVal.str "image" else m)) := by
  unfold stepMode
  rw [h]

theorem stepMode_network {o o3 : Obj} (hs : stepMode o = Except.ok o3)
    (hm : oget o3 "mode" = some (JVal.str "patch")) :
    oget o3 "network_type" = none := by
  unfold stepMode at hs
  split at hs
  · exact absurd hs (by simp)
  · rename_i m heq
    cases hs
    rw [modePatch_frame _ _ (by simp) (by simp), modeSlice_frame _ _ (by simp),
      modeSubject_mode] at hm
    by_cases hsub : m = JVal.str "subject"
    · rw [if_pos hsub] at hm
      exact absurd hm (by simp)
    · rw [if_neg hsub, heq] at hm
      have hmp : m = JVal.str "patch" := by injection hm
      have hm1 : (if m = JVal.str "subject" then JVal.str "image" else m) = JVal.str "patch" := by
        rw [if_neg hsub]
        exact hmp
      rw [modePatch_network _ hm1]

theorem stepMode_id {o : Obj} {m : JVal} (h : oget o "mode" = some m)
    (h1 : m ≠ JVal.str "subject")
    (h2 : m = JVal.str "slice" → ohas o "mode_task" = true)
    (h3 : m = JVal.str "patch" → ohas o "network_type" = false) :
    stepMode o = Except.ok o := by
  rw [stepMode_eq h, modeSubject_id h1, if_neg h1]
  by_cases hs : m = JVal.str "slice"
  · rw [modeSlice_mtask _ _ (h2 hs), modePatch_id (by rw [hs]; simp)]
  · rw [modeSlice_id hs]
    by_cases hp : m = JVal.str "patch"
    · rw [modePatch_id_no_network _ (h3 hp)]
    · rw [modePatch_id hp]

theorem stepModeTask_frame (o : Obj) {k : String} (h : k ≠ "mode_task") :
    oget (stepModeTask o) k = oget o k := by
  unfold stepModeTask
  split
  · rfl
  · split
    · rw [oget_oset_ne _ _ _ _ h]
    · rw [oget_oset_ne _ _ _ _ h]

theorem stepModeTask_has (o : Obj) : ohas (stepModeTask o) "mode_task" = true := by
  unfold stepModeTask
  split
  · assumption
  · split
    · exact ohas_oset_self _ _ _
    · exact ohas_oset_self _ _ _

theorem stepModeTask_id {o : Obj} (h : ohas o "mode_task" = true) :
    stepModeTask o = o := by
  unfold stepModeTask
  rw [if_pos h]

theorem stepUseCpu_frame (o : Obj) {k : String} (h : k ≠ "use_gpu") :
    oget (stepUseCpu o) k = oget o k := by
  unfold stepUseCpu
  split
  · rw [oget_oset_ne _ _ _ _ h]
  · rfl

theorem stepUseCpu_set {o : Obj} {v : JVal} (h : oget o "use_cpu" = some v) :
    oget (stepUseCpu o) "use_gpu" = some (JVal.bool (pyNot v)) := by
  unfold stepUseCpu
  rw [h, oget_oset_self]

theorem stepUseCpu_id {o : Obj}
    (h : ∀ v, oget o "use_cpu" = some v → oget o "use_gpu" = some (JVal.bool (pyNot v))) :
    stepUseCpu o = o := by
  unfold stepUseCpu
  cases hc : oget o "use_cpu" with
  | none => rfl
  | some v => exact oset_self (h v hc)

theorem stepUnnormalize_frame (o : Obj) {k : String} (h : k ≠ "minmaxnormalization") :
    oget (stepUnnormalize o) k = oget o k := by
  unfold stepUnnormalize
  split
  · rw [oget_oset_ne _ _ _ _ h]
  · rfl

theorem stepUnnormalize_set {o : Obj} {v : JVal} (h : oget o "unnormalize" = some v) :
    oget (stepUnnormalize o) "minmaxnormalization" = some (JVal.bool (pyNot v)) := by
  unfold stepUnnormalize
  rw [h, oget_oset_self]

theorem stepUnnormalize_id {o : Obj}
    (h : ∀ v, oget o "unnormalize" = some v →
      oget o "minmaxnormalization" = some (JVal.bool (pyNot v))) :
    stepUnnormalize o = o := by
  unfold stepUnnormalize
  cases hc : oget o "unnormalize" with
  | none => rfl
  | some v => exact oset_self (h v hc)

/-- The value that the `use_extracted_*` block of lines 259-264 leaves in
`prepare_dl` (later keys win), when any of the three keys is present. -/
def lastExtracted (o : Obj) : Option JVal :=
  match oget o "use_extracted_roi" with
  | some v => some v
  | none =>
    match oget o "use_extracted_patches" with
    | some v => some v
    | none => oget o "use_extracted_slices"

theorem extrStep_some {o : Obj} {key : String} {v : JVal} (h : oget o key = some v) :
    extrStep key o = oset o "prepare_dl" v := by
  unfold extrStep
  rw [h]

theorem extrStep_none {o : Obj} {key : String} (h : oget o key = none) :
    extrStep key o = o := by
  unfold extrStep
  rw [h]

theorem extrStep_frame (key : String) (o : Obj) {k : String} (h : k ≠ "prepare_dl") :
    oget (extrStep key o) k = oget o k := by
  unfold extrStep
  split
  · rw [oget_oset_ne _ _ _ _ h]
  · rfl

theorem stepExtracted_frame (o : Obj) {k : String} (h : k ≠ "prepare_dl") :
    oget (stepExtracted o) k = oget o k := by
  unfold stepExtracted
  rw [extrStep_frame _ _ h, extrStep_frame _ _ h, extrStep_frame _ _ h]

theorem lastExtracted_roi {o : Obj} {v : JVal}
    (h : oget o "use_extracted_roi" = some v) : lastExtracted o = some v := by
  unfold lastExtracted
  rw [h]

theorem lastExtracted_patches {o : Obj} {v : JVal}
    (h3 : oget o "use_extracted_roi" = none)
    (h2 : oget o "use_extracted_patches" = some v) : lastExtracted o = some v := by
  unfold lastExtracted
  rw [h3, h2]

theorem lastExtracted_slices {o : Obj}
    (h3 : oget o "use_extracted_roi" = none)
    (h2 : oget o "use_extracted_patches" = none) :
    lastExtracted o = oget o "use_extracted_slices" := by
  unfold lastExtracted
  rw [h3, h2]

theorem stepExtracted_pd {o : Obj} {v : JVal} (h : lastExtracted o = some v) :
    oget (stepExtracted o) "prepare_dl" = some v := by
  unfold stepExtracted
  cases h3 : oget o "use_extracted_roi" with
  | some v3 =>
    have hv : v3 = v := by
      have hc := (lastExtracted_roi h3).symm.trans h
      injection hc
    subst hv
    have hroi : oget (extrStep "use_extracted_patches" (extrStep "use_extracted_slices" o))
        "use_extracted_roi" = some v3 := by
      rw [extrStep_frame _ _ (by simp), extrStep_frame _ _ (by simp), h3]
    rw [extrStep_some hroi, oget_oset_self]
  | none =>
    cases h2 : oget o "use_extracted_patches" with
    | some v2 =>
      have hv : v2 = v := by
        have hc := (lastExtracted_patches h3 h2).symm.trans h
        injection hc
      subst hv
      have hpat : oget (extrStep "use_extracted_slices" o) "use_extracted_patches"
          = some v2 := by
        rw [extrStep_frame _ _ (by simp), h2]
      rw [extrStep_some hpat]
      have hroi : oget (oset (extrStep "use_extracted_slices" o) "prepare_dl" v2)
          "use_extracted_roi" = none := by
        rw [oget_oset_ne _ _ _ _ (by simp), extrStep_frame _ _ (by simp), h3]
      rw [extrStep_none hroi, oget_oset_self]
    | none =>
      have hsl : oget o "use_extracted_slices" = some v := by
        rw [← lastExtracted_slices h3 h2]
        exact h
      rw [extrStep_some hsl]
      have hpat : oget (oset o "prepare_dl" v) "use_extracted_patches" = none := by
        rw [oget_oset_ne _ _ _ _ (by simp), h2]
      rw [extrStep_none hpat]
      have hroi : oget (oset o "prepare_dl" v) "use_extracted_roi" = none := by
        rw [oget_oset_ne _ _ _ _ (by simp), h3]
      rw [extrStep_none hroi, oget_oset_self]

theorem stepExtracted_id {o : Obj}
    (h : ∀ v, lastExtracted o = some v → oget o "prepare_dl" = some v) :
    stepExtracted o = o := by
  unfold stepExtracted
  cases h3 : oget o "use_extracted_roi" with
  | some v3 =>
    have hpd : oget o "prepare_dl" = some v3 := h v3 (lastExtracted_roi h3)
    cases h1 : oget o "use_extracted_slices" with
    | some v1 =>
      rw [extrStep_some h1]
      cases h2 : oget o "use_extracted_patches" with
      | some v2 =>
        have hp : oget (oset o "prepare_dl" v1) "use_extracted_patches" = some v2 := by
          rw [oget_oset_ne _ _ _ _ (by simp), h2]
        rw [extrStep_some hp, oset_oset]
        have hr : oget (oset o "prepare_dl" v2) "use_extracted_roi" = some v3 := by
          rw [oget_oset_ne _ _ _ _ (by simp), h3]
        rw [extrStep_some hr, oset_oset, oset_self hpd]
      | none =>
        have hp : oget (oset o "prepare_dl" v1) "use_extracted_patches" = none := by
          rw [oget_oset_ne _ _ _ _ (by simp), h2]
        rw [extrStep_none hp]
        have hr : oget (oset o "prepare_dl" v1) "use_extracted_roi" = some v3 := by
          rw [oget_oset_ne _ _ _ _ (by simp), h3]
        rw [extrStep_some hr, oset_oset, oset_self hpd]
    | none =>
      rw [extrStep_none h1]
      cases h2 : oget o "use_extracted_patches" with
      | some v2 =>
        rw [extrStep_some h2]
        have hr : oget (oset o "prepare_dl" v2) "use_extracted_roi" = some v3 := by
          rw [oget_oset_ne _ _ _ _ (by simp), h3]
        rw [extrStep_some hr, oset_oset, oset_self hpd]
      | none =>
        rw [extrStep_none h2, extrStep_some h3, oset_self hpd]
  | none =>
    cases h2 : oget o "use_extracted_patches" with
    | some v2 =>
      have hpd : oget o "prepare_dl" = some v2 := h v2 (lastExtracted_patches h3 h2)
      cases h1 : oget o "use_extracted_slices" with
      | some v1 =>
        rw [extrStep_some h1]
        have hp : oget (oset o "prepare_dl" v1) "use_extracted_patches" = some v2 := by
          rw [oget_oset_ne _ _ _ _ (by simp), h2]
        rw [extrStep_some hp, oset_oset]
        have hr : oget (oset o "prepare_dl" v2) "use_extracted_roi" = none := by
          rw [oget_oset_ne _ _ _ _ (by simp), h3]
        rw [extrStep_none hr, oset_self hpd]
      | none =>
        rw [extrStep_none h1, extrStep_some h2]
        have hr : oget (oset o "prepare_dl" v2) "use_extracted_roi" = none := by
          rw [oget_oset_ne _ _ _ _ (by simp), h3]
        rw [extrStep_none hr, oset_self hpd]
    | none =>
      cases h1 : oget o "use_extracted_slices" with
      | some v1 =>
        have hpd : oget o "prepare_dl" = some v1 := h v1 (by
          rw [lastExtracted_slices h3 h2]
          exact h1)
        rw [extrStep_some h1]
        have hp : oget (oset o "prepare_dl" v1) "use_extracted_patches" = none := by
          rw [oget_oset_ne _ _ _ _ (by simp), h2]
        rw [extrStep_none hp]
        have hr : oget (oset o "prepare_dl" v1) "use_extracted_roi" = none := by
          rw [oget_oset_ne _ _ _ _ (by simp), h3]
        rw [extrStep_none hr, oset_self hpd]
      | none =>
        rw [extrStep_none h1, extrStep_none h2, extrStep_none h3]

/-- Invariance of the `lastExtracted` observation under `stepExtracted`,
which only writes `prepare_dl`. -/
theorem lastExtracted_stepExtracted (o : Obj) :
    lastExtracted (stepExtracted o) = lastExtracted o := by
  unfold lastExtracted
  rw [stepExtracted_frame _ (by decide), stepExtracted_frame _ (by decide),
    stepExtracted_frame _ (by decide)]

/-- The keys that the retro-compatibility pass of `read_json` reads or
writes. -/
def passTouched : List String :=
  ["dropout", "preprocessing", "slice_direction", "mri_plane", "mode",
   "hippocampus_roi", "transfer_learning_path", "pretrained_path",
   "transfer_learning_difference", "pretrained_difference", "mode_task",
   "network_type", "use_gpu", "minmaxnormalization", "prepare_dl"]

/-- The retro-compatibility pass leaves every key outside `passTouched`
unchanged. -/
theorem legacyPass_frame {o d : Obj} (hs : legacyPass o = Except.ok d)
    {k : String} (hk : k ∉ passTouched) : oget d k = oget o k := by
  simp only [passTouched, List.mem_cons, List.not_mem_nil, or_false, not_or] at hk
  obtain ⟨n1, n2, n3, n4, n5, n6, n7, n8, n9, n10, n11, n12, n13, n14, n15⟩ := hk
  unfold legacyPass at hs
  cases hA : stepPreproc (stepDropout o) with
  | error e => rw [hA] at hs; exact Except.noConfusion hs
  | ok o1 =>
    rw [hA] at hs
    have hs2 : (match stepMode (stepPretrainedDiff (stepPretrainedPath
        (stepHippo (stepMriPlane o1)))) with
      | Except.error e => Except.error e
      | Except.ok o3 =>
        Except.ok (stepExtracted (stepUnnormalize (stepUseCpu (stepModeTask o3))))) =
        Except.ok d := hs
    cases hB : stepMode (stepPretrainedDiff (stepPretrainedPath
        (stepHippo (stepMriPlane o1)))) with
    | error e => rw [hB] at hs2; exact Except.noConfusion hs2
    | ok o3 =>
      rw [hB] at hs2
      have hd : stepExtracted (stepUnnormalize (stepUseCpu (stepModeTask o3))) = d := by
        injection hs2
      rw [← hd]
      rw [stepExtracted_frame _ n15, stepUnnormalize_frame _ n14, stepUseCpu_frame _ n13,
        stepModeTask_frame _ n11, stepMode_frame hB n5 n11 n12,
        stepPretrainedDiff_frame _ n9 n10, stepPretrainedPath_frame _ n7 n8,
        stepHippo_frame _ n5 n6, stepMriPlane_frame _ n3 n4,
        stepPreproc_frame hA n2, stepDropout_frame _ _ n1]

/-- The shape of an already-migrated record: what one run of the
retro-compatibility pass guarantees about its output. -/
structure MigratedInv (d : Obj) : Prop where
  dropout_set : ∃ w, oget d "dropout" = some w ∧ w ≠ JVal.null
  preproc_set : ∃ p, oget d "preprocessing" = some p ∧
    p ≠ JVal.str "mni" ∧ p ≠ JVal.str "linear"
  mri_none : oget d "mri_plane" = none
  hippo_none : oget d "hippocampus_roi" = none
  ppath_none : oget d "pretrained_path" = none
  pdiff_none : oget d "pretrained_difference" = none
  mode_set : ∃ m, oget d "mode" = some m ∧ m ≠ JVal.str "subject" ∧
    (m = JVal.str "patch" → ohas d "network_type" = false)
  mtask_has : ohas d "mode_task" = true
  cpu_gpu : ∀ v, oget d "use_cpu" = some v →
    oget d "use_gpu" = some (JVal.bool (pyNot v))
  unnorm_mm : ∀ v, oget d "unnormalize" = some v →
    oget d "minmaxnormalization" = some (JVal.bool (pyNot v))
  extr_pd : ∀ v, lastExtracted d = some v → oget d "prepare_dl" = some v

/-- A record satisfying `MigratedInv` is a fixed point of the
retro-compatibility pass. -/
theorem legacyPass_of_inv {d : Obj} (hI : MigratedInv d) :
    legacyPass d = Except.ok d := by
  obtain ⟨w, hw, hw0⟩ := hI.dropout_set
  obtain ⟨p, hp, hpm, hpl⟩ := hI.preproc_set
  obtain ⟨m, hm, hms, hmp⟩ := hI.mode_set
  unfold legacyPass
  rw [stepDropout_id hw hw0, stepPreproc_id hp hpm hpl]
  show (match stepMode (stepPretrainedDiff (stepPretrainedPath
      (stepHippo (stepMriPlane d)))) with
    | Except.error e => Except.error e
    | Except.ok o3 =>
      Except.ok (stepExtracted (stepUnnormalize (stepUseCpu (stepModeTask o3))))) =
      Except.ok d
  rw [stepMriPlane_id hI.mri_none, stepHippo_id (ohas_false_of_oget_none hI.hippo_none),
    stepPretrainedPath_id hI.ppath_none, stepPretrainedDiff_id hI.pdiff_none,
    stepMode_id hm hms (fun _ => hI.mtask_has) hmp]
  show Except.ok (stepExtracted (stepUnnormalize (stepUseCpu (stepModeTask d)))) =
    Except.ok d
  rw [stepModeTask_id hI.mtask_has, stepUseCpu_id hI.cpu_gpu,
    stepUnnormalize_id hI.unnorm_mm, stepExtracted_id hI.extr_pd]

/-- One successful run of the retro-compatibility pass establishes
`MigratedInv` on its output. -/
theorem legacyPass_inv {o d : Obj} (hs : legacyPass o = Except.ok d) :
    MigratedInv d := by
  unfold legacyPass at hs
  cases hA : stepPreproc (stepDropout o) with
  | error e => rw [hA] at hs; exact Except.noConfusion hs
  | ok o1 =>
    rw [hA] at hs
    have hs2 : (match stepMode (stepPretrainedDiff (stepPretrainedPath
        (stepHippo (stepMriPlane o1)))) with
      | Except.error e => Except.error e
      | Except.ok o3 =>
        Except.ok (stepExtracted (stepUnnormalize (stepUseCpu (stepModeTask o3))))) =
        Except.ok d := hs
    cases hB : stepMode (stepPretrainedDiff (stepPretrainedPath
        (stepHippo (stepMriPlane o1)))) with
    | error e => rw [hB] at hs2; exact Except.noConfusion hs2
    | ok o3 =>
      rw [hB] at hs2
      have hd : stepExtracted (stepUnnormalize (stepUseCpu (stepModeTask o3))) = d := by
        injection hs2
      subst hd
      constructor
      case dropout_set =>
        obtain ⟨w, hw, hw0⟩ := stepDropout_dropout o
        refine ⟨w, ?_, hw0⟩
        rw [stepExtracted_frame _ (by decide), stepUnnormalize_frame _ (by decide),
          stepUseCpu_frame _ (by decide), stepModeTask_frame _ (by decide),
          stepMode_frame hB (by decide) (by decide) (by decide),
          stepPretrainedDiff_frame _ (by decide) (by decide),
          stepPretrainedPath_frame _ (by decide) (by decide),
          stepHippo_frame _ (by decide) (by decide),
          stepMriPlane_frame _ (by decide) (by decide),
          stepPreproc_frame hA (by decide), hw]
      case preproc_set =>
        obtain ⟨p, hp, hpm, hpl⟩ := stepPreproc_preproc hA
        refine ⟨p, ?_, hpm, hpl⟩
        rw [stepExtracted_frame _ (by decide), stepUnnormalize_frame _ (by decide),
          stepUseCpu_frame _ (by decide), stepModeTask_frame _ (by decide),
          stepMode_frame hB (by decide) (by decide) (by decide),
          stepPretrainedDiff_frame _ (by decide) (by decide),
          stepPretrainedPath_frame _ (by decide) (by decide),
          stepHippo_frame _ (by decide) (by decide),
          stepMriPlane_frame _ (by decide) (by decide), hp]
      case mri_none =>
        rw [stepExtracted_frame _ (by decide), stepUnnormalize_frame _ (by decide),
          stepUseCpu_frame _ (by decide), stepModeTask_frame _ (by decide),
          stepMode_frame hB (by decide) (by decide) (by decide),
          stepPretrainedDiff_frame _ (by decide) (by decide),
          stepPretrainedPath_frame _ (by decide) (by decide),
          stepHippo_frame _ (by decide) (by decide), stepMriPlane_none o1]
      case hippo_none =>
        rw [stepExtracted_frame _ (by decide), stepUnnormalize_frame _ (by decide),
          stepUseCpu_frame _ (by decide), stepModeTask_frame _ (by decide),
          stepMode_frame hB (by decide) (by decide) (by decide),
          stepPretrainedDiff_frame _ (by decide) (by decide),
          stepPretrainedPath_frame _ (by decide) (by decide),
          stepHippo_none (stepMriPlane o1)]
      case ppath_none =>
        rw [stepExtracted_frame _ (by decide), stepUnnormalize_frame _ (by decide),
          stepUseCpu_frame _ (by decide), stepModeTask_frame _ (by decide),
          stepMode_frame hB (by decide) (by decide) (by decide),
          stepPretrainedDiff_frame _ (by decide) (by decide),
          stepPretrainedPath_none (stepHippo (stepMriPlane o1))]
      case pdiff_none =>
        rw [stepExtracted_frame _ (by decide), stepUnnormalize_frame _ (by decide),
          stepUseCpu_frame _ (by decide), stepModeTask_frame _ (by decide),
          stepMode_frame hB (by decide) (by decide) (by decide),
          stepPretrainedDiff_none (stepPretrainedPath (stepHippo (stepMriPlane o1)))]
      case mode_set =>
        obtain ⟨m, hmD, hm3⟩ := stepMode_mode hB
        refine ⟨if m = JVal.str "subject" then JVal.str "image" else m, ?_, ?_, ?_⟩
        · rw [stepExtracted_frame _ (by decide), stepUnnormalize_frame _ (by decide),
            stepUseCpu_frame _ (by decide), stepModeTask_frame _ (by decide), hm3]
        · by_cases hc : m = JVal.str "subject"
          · rw [if_pos hc]; decide
          · rw [if_neg hc]; exact hc
        · intro hpt
          have hnet : oget o3 "network_type" = none :=
            stepMode_network hB (by rw [hm3, hpt])
          apply ohas_false_of_oget_none
          rw [stepExtracted_frame _ (by decide), stepUnnormalize_frame _ (by decide),
            stepUseCpu_frame _ (by decide), stepModeTask_frame _ (by decide), hnet]
      case mtask_has =>
        have hc : oget (stepExtracted (stepUnnormalize (stepUseCpu (stepModeTask o3))))
            "mode_task" = oget (stepModeTask o3) "mode_task" := by
          rw [stepExtracted_frame _ (by decide), stepUnnormalize_frame _ (by decide),
            stepUseCpu_frame _ (by decide)]
        rw [ohas_eq_isSome, hc, ← ohas_eq_isSome]
        exact stepModeTask_has o3
      case cpu_gpu =>
        intro v hv
        have hvT : oget (stepModeTask o3) "use_cpu" = some v := by
          rw [stepExtracted_frame _ (by decide), stepUnnormalize_frame _ (by decide),
            stepUseCpu_frame _ (by decide)] at hv
          exact hv
        rw [stepExtracted_frame _ (by decide), stepUnnormalize_frame _ (by decide),
          stepUseCpu_set hvT]
      case unnorm_mm =>
        intro v hv
        have hvC : oget (stepUseCpu (stepModeTask o3)) "unnormalize" = some v := by
          rw [stepExtracted_frame _ (by decide), stepUnnormalize_frame _ (by decide)] at hv
          exact hv
        rw [stepExtracted_frame _ (by decide), stepUnnormalize_set hvC]
      case extr_pd =>
        intro v hv
        rw [lastExtracted_stepExtracted] at hv
        exact stepExtracted_pd hv

/-! ### The assignment loop and the serialiser -/

theorem oget_assignStep_ne (test : Bool) (o : Obj) {k k1 : String} (v1 : JVal)
    (h : k ≠ k1) : oget (assignStep test o k1 v1) k = oget o k := by
  unfold assignStep
  split
  · rfl
  · rw [oget_oset_ne _ _ _ _ h]

theorem oget_assignStep_self (test : Bool) (o : Obj) (k : String) (v : JVal)
    (h : test = false ∨ k ∉ evaluation_parameters) :
    oget (assignStep test o k v) k = some v := by
  unfold assignStep
  rw [if_neg (fun hc => by
    cases h with
    | inl h1 => rw [h1] at hc; exact absurd hc.1 (by simp)
    | inr h2 => exact h2 hc.2)]
  exact oget_oset_self _ _ _

theorem oget_applyItems_not_mem (test : Bool) (o : Obj) (items : Dict) (k : String)
    (h : dget items k = none) : oget (applyItems test o items) k = oget o k := by
  induction items generalizing o with
  | nil => rfl
  | cons p rest ih =>
    obtain ⟨k1, v1⟩ := p
    by_cases hk : k = k1
    · subst hk
      rw [dget_cons_eq] at h
      exact absurd h (by simp)
    · rw [dget_cons_ne _ _ _ _ hk] at h
      show oget (applyItems test (assignStep test o k1 v1) rest) k = oget o k
      rw [ih _ h, oget_assignStep_ne _ _ _ hk]

theorem oget_applyItems_mem (test : Bool) (o : Obj) (items : Dict) (k : String)
    (v : JVal) (hnd : (dkeys items).Nodup) (h : dget items k = some v)
    (hne : test = false ∨ k ∉ evaluation_parameters) :
    oget (applyItems test o items) k = some v := by
  induction items generalizing o with
  | nil => simp [dget] at h
  | cons p rest ih =>
    obtain ⟨k1, v1⟩ := p
    rw [dkeys, List.map_cons, List.nodup_cons] at hnd
    by_cases hk : k = k1
    · subst hk
      rw [dget_cons_eq] at h
      have hrest : dget rest k = none :=
        dget_none_of_not_mem (by simpa [dkeys] using hnd.1)
      show oget (applyItems test (assignStep test o k v1) rest) k = some v
      rw [oget_applyItems_not_mem _ _ _ _ hrest, oget_assignStep_self _ _ _ _ hne, h]
    · rw [dget_cons_ne _ _ _ _ hk] at h
      show oget (applyItems test (assignStep test o k1 v1) rest) k = some v
      exact ih _ (by simpa [dkeys] using hnd.2) h

theorem oget_popKey (o : Obj) (k x : String) :
    oget (popKey o k) x = if x = k then none else oget o x := by
  unfold popKey
  by_cases hh : ohas o k
  · rw [if_pos hh, oget_odel]
  · rw [if_neg hh]
    by_cases hx : x = k
    · rw [if_pos hx, hx]
      exact oget_none_of_ohas_false (by simpa using hh)
    · rw [if_neg hx]

theorem oget_commandline_to_json (r : Obj) (u : JVal) (x : String) :
    oget (commandline_to_json r u) x =
      if x = "unknown_arg" then some u
      else if x = "func" ∨ x = "caps_dir" ∨ x = "tsv_path" ∨ x = "output_dir" then none
      else oget r x := by
  unfold commandline_to_json
  rw [oget_popKey, oget_popKey, oget_popKey, oget_popKey]
  by_cases h1 : x = "unknown_arg"
  · subst h1
    rw [if_neg (by decide), if_neg (by decide), if_neg (by decide), if_neg (by decide),
      if_pos rfl, oget_oset_self]
  · rw [if_neg h1]
    by_cases h2 : x = "output_dir"
    · rw [if_pos h2, if_pos (by rw [h2]; simp)]
    · rw [if_neg h2]
      by_cases h3 : x = "tsv_path"
      · rw [if_pos h3, if_pos (by rw [h3]; simp)]
      · rw [if_neg h3]
        by_cases h4 : x = "caps_dir"
        · rw [if_pos h4, if_pos (by rw [h4]; simp)]
        · rw [if_neg h4]
          by_cases h5 : x = "func"
          · rw [if_pos h5, if_pos (by rw [h5]; simp)]
          · rw [if_neg h5, if_neg (by simp [h2, h3, h4, h5]),
              oget_oset_ne _ _ _ _ h1]

/-- Lookup in the options record produced by the assignment loop of
`read_json` run over a serialised record: present keys of the JSON win,
missing keys fall back to the initial options. -/
theorem oget_loop_of_obj (test : Bool) (options json : Obj) (x : String)
    (hne : test = false ∨ x ∉ evaluation_parameters) :
    oget (applyItems test options json.entries) x =
      match oget json x with
      | some v => some v
      | none => oget options x := by
  cases hj : oget json x with
  | some v => exact oget_applyItems_mem test options json.entries x v json.nodup hj hne
  | none => exact oget_applyItems_not_mem test options json.entries x hj

/-! ## Embedding of `clinicadl/tools/data/generate_data.py`

The two generators are embedded as trace-producing functions. External IO
(the input manifest, `find_image_path`, `nib.load`, `nib.save`, the
filesystem existence checks) is supplied by an environment of oracles; the
filesystem effects (`os.makedirs`, volume writes, the manifest write) are
recorded as an ordered event trace, and an uncaught Python exception ends
the run with the trace accumulated so far. -/

/-- A row of the input subject manifest (`pd.read_csv` result). -/
structure TsvRow where
  participant_id : String
  session_id : String
deriving DecidableEq, Repr

/-- A row of the output manifest `data.tsv`. -/
structure MRow where
  participant_id : String
  session_id : String
  diagnosis : String
  age : Nat
  sex : String
deriving DecidableEq, Repr

/-- A filesystem path, as a list of components. -/
abbrev FsPath : Type := List String

/-- A recorded filesystem effect. File writes carry the directory that
contains the written file. -/
inductive Event where
  | makedirs (p : FsPath)
  | writeManifest (p : FsPath) (rows : List MRow)
  | writeImage (p : FsPath)
deriving DecidableEq, Repr

/-- An uncaught Python exception. -/
inductive PyErr where
  | keyError
  | fileNotFound
  | typeError
  | osError
  | valueError (msg : String)
deriving DecidableEq, Repr

/-- The outcome of one generator run: the effects that happened, and the
exception that ended the run early, if any. -/
structure GenResult where
  trace : List Event
  err : Option PyErr
deriving DecidableEq, Repr

/-- Oracles for `generate_random_dataset`: the parsed input manifest, the
initial filesystem (`path.exists`), the outcome of `find_image_path`, of
`nib.load` on the first subject's volume, and of each `nib.save`. -/
structure REnv where
  tsv : List TsvRow
  exists0 : FsPath → Bool
  findImage : String → String → Bool
  loadImg : Bool
  saveOk : FsPath → Bool

/-- Line 64: `['sub-RAND%i' % i for i in range(2 * n_subjects)]`. -/
def participant_id_list (n : Nat) : List String :=
  (List.range (2 * n)).map (fun i => "sub-RAND" ++ toString i)

/-- Line 65: `['ses-M00'] * 2 * n_subjects`. -/
def session_id_list (n : Nat) : List String := List.replicate (2 * n) "ses-M00"

/-- Line 66: `['AD'] * n_subjects + ['CN'] * n_subjects`. -/
def diagnosis_list_random (n : Nat) : List String :=
  List.replicate n "AD" ++ List.replicate n "CN"

/-- Lines 63-71: the output manifest of the random generator. Row `i` of the
transposed column array carries the `i`-th entry of each column, with the
constant columns `age = 60` and `sex = 'F'` appended. -/
def randomManifest (n : Nat) : List MRow :=
  (List.range (2 * n)).map (fun i =>
    { participant_id := (participant_id_list n).getD i ""
      session_id := (session_id_list n).getD i ""
      diagnosis := (diagnosis_list_random n).getD i ""
      age := 60
      sex := "F" })

/-- Line 83: the per-subject output directory of the random generator. -/
def subjDirRandom (out : String) (i : Nat) : FsPath :=
  [out, "subjects", "sub-RAND" ++ toString i, "ses-M00", "t1_linear"]

/-- Lines 74-87: the image loop of the random generator. Each iteration
creates the subject directory when missing and saves one noisy volume; a
failing save aborts the loop. -/
def randomImages (env : REnv) (out : String) : List Nat → List Event × Option PyErr
  | [] => ([], none)
  | i :: rest =>
    let dir := subjDirRandom out i
    let pre : List Event := if env.exists0 dir then [] else [Event.makedirs dir]
    if env.saveOk dir then
      let t := randomImages env out rest
      (pre ++ Event.writeImage dir :: t.1, t.2)
    else (pre, some PyErr.osError)

/-- Lines 18-87, `generate_random_dataset`: create `output_dir/subjects` when
missing, read the first manifest row (`.loc[0]` raises `KeyError` on an empty
frame), locate and load the source volume (failures propagate), write the
full output manifest once, then write the noisy volumes. -/
def generate_random_dataset (env : REnv) (out : String) (n : Nat) : GenResult :=
  let t0 : List Event :=
    if env.exists0 [out, "subjects"] then [] else [Event.makedirs [out, "subjects"]]
  match env.tsv.head? with
  | none => ⟨t0, some PyErr.keyError⟩
  | some row =>
    if env.findImage row.participant_id row.session_id = false then
      ⟨t0, some PyErr.fileNotFound⟩
    else if env.loadImg = false then
      ⟨t0, some PyErr.fileNotFound⟩
    else
      let res := randomImages env out (List.range (2 * n))
      ⟨t0 ++ Event.writeManifest [out] (randomManifest n) :: res.1, res.2⟩

/-- Modelled from the spec: `FILENAME_TYPE['cropped']` comes from
`clinicadl/tools/inputs/filename_types.py`, which is not under `src/`; the
spec describes it as a suffix from a small fixed filename-convention table.
Its concrete value is irrelevant to every claim. -/
def FILENAME_TYPE_cropped : String :=
  "_space-MNI152NLin2009cSym_desc-Crop_res-1x1x1_T1w"

/-- Python `%` applied to a list, as written on line 142 of
`generate_data.py`: `['sub-TRIV%i' + FILENAME_TYPE['cropped'] + '.nii.gz'] % i`.
A Python list does not implement the `%` operator, so this raises
`TypeError` unconditionally. -/
def listMod (_xs : List String) (_i : Nat) : Except PyErr String :=
  Except.error PyErr.typeError

/-- Helper for `baseline_df`: keep the first row of each participant. -/
def baselineAux : List String → List TsvRow → List TsvRow
  | _, [] => []
  | seen, r :: rest =>
    if seen.contains r.participant_id then baselineAux seen rest
    else r :: baselineAux (r.participant_id :: seen) rest

/-- Modelled from the spec: `baseline_df` comes from
`clinicadl/tools/tsv/tsv_utils.py`, which is not under `src/`. The spec says
the trivial generator first restricts the input manifest to one baseline
session per participant, keeping the first qualifying session per
participant; modelled as keeping each participant's first row. -/
def baseline_df (rows : List TsvRow) : List TsvRow := baselineAux [] rows

/-- Lines 124-125: the message of the subject-count `ValueError`. It
interpolates the requested count and the manifest path. -/
def trivialCountMsg (n : Nat) (tsvPath : String) : String :=
  "The number of subjects " ++ toString n ++
    (" cannot be higher than the number of subjects in the baseline DataFrame extracted from "
      ++ tsvPath)

/-- Lines 128-129: the message of the missing-mask `ValueError`. -/
def maskMsg : String :=
  "Please provide a path to masks. Such masks are available at clinicadl/tools/data/AAL2."

/-- Line 134. -/
def diagnosis_list_trivial : List String := ["AD", "CN"]

/-- Oracles for `generate_trivial_dataset`. -/
structure TEnv where
  tsv : List TsvRow
  exists0 : FsPath → Bool
  findImage : String → String → Bool
  loadImg : String → Bool
  loadMask : Nat → Bool

/-- Line 143: the per-subject output directory of the trivial generator. -/
def subjDirTrivial (out : String) (i : Nat) : FsPath :=
  [out, "subjects", "sub-TRIV" ++ toString i, "ses-M00", "t1_linear"]

/-- Lines 136-166: the loop body of the trivial generator, in source order:
read the baseline row `i // 2`, build the output filename (line 142, which
applies `%` to a list and therefore raises `TypeError`), then — in the code
as written, unreachably — create the subject directory, locate and load the
subject volume, load mask `(i % 2) + 1`, save the attenuated volume, and
append the output manifest row. -/
def trivialLoop (env : TEnv) (out : String) (df : List TsvRow) :
    List Nat → List MRow → List Event × List MRow × Option PyErr
  | [], rows => ([], rows, none)
  | i :: rest, rows =>
    let data_idx := i / 2
    let label := i % 2
    let participant_id := (df.getD data_idx ⟨"", ""⟩).participant_id
    let session_id := (df.getD data_idx ⟨"", ""⟩).session_id
    match listMod ["sub-TRIV%i" ++ FILENAME_TYPE_cropped ++ ".nii.gz"] i with
    | Except.error e => ([], rows, some e)
    | Except.ok _filename =>
      let path_image := subjDirTrivial out i
      let pre : List Event :=
        if env.exists0 path_image then [] else [Event.makedirs path_image]
      if env.findImage participant_id session_id = false then
        (pre, rows, some PyErr.fileNotFound)
      else if env.loadImg participant_id = false then
        (pre, rows, some PyErr.fileNotFound)
      else if env.loadMask (label + 1) = false then
        (pre, rows, some PyErr.fileNotFound)
      else
        let row : MRow := ⟨"sub-TRIV" ++ toString i, "ses-M00",
          diagnosis_list_trivial.getD label "", 60, "F"⟩
        let t := trivialLoop env out df rest (rows ++ [row])
        (pre ++ Event.writeImage path_image :: t.1, t.2.1, t.2.2)

/-- Lines 90-168, `generate_trivial_dataset`: restrict the manifest to
baseline rows, validate the requested count against the available count
(line 123) and the mask directory argument (line 127), run the generation
loop, and finally write the accumulated output manifest (line 168). -/
def generate_trivial_dataset (env : TEnv) (out tsvPath : String) (n : Nat)
    (maskGiven : Bool) : GenResult :=
  let df := baseline_df env.tsv
  if n > df.length then
    ⟨[], some (PyErr.valueError (trivialCountMsg n tsvPath))⟩
  else if maskGiven = false then
    ⟨[], some (PyErr.valueError maskMsg)⟩
  else
    let r := trivialLoop env out df (List.range (2 * n)) []
    match r.2.2 with
    | some e => ⟨r.1, some e⟩
    | none => ⟨r.1 ++ [Event.writeManifest [out] r.2.1], none⟩

/-! ### Trace and string predicates -/

/-- Substring search: does `pat` occur at the head of `s`? -/
def takesFrom : List Char → List Char → Bool
  | _, [] => true
  | [], _ :: _ => false
  | c :: cs, p :: ps => if c = p then takesFrom cs ps else false

/-- Substring search: does `pat` occur anywhere in `s`? -/
def findSub : List Char → List Char → Bool
  | [], pat => takesFrom [] pat
  | c :: cs, pat => takesFrom (c :: cs) pat || findSub cs pat

/-- Whether `pat` occurs as a contiguous substring of `s`. -/
def strHasSub (s pat : String) : Bool := findSub s.data pat.data

theorem takesFrom_self_append (p z : List Char) : takesFrom (p ++ z) p = true := by
  induction p with
  | nil => cases z <;> rfl
  | cons c cs ih => simp [takesFrom, ih]

theorem findSub_of_takesFrom {s pat : List Char} (h : takesFrom s pat = true) :
    findSub s pat = true := by
  cases s with
  | nil => exact h
  | cons c cs => simp [findSub, h]

theorem findSub_append_left (x : List Char) {y pat : List Char}
    (h : findSub y pat = true) : findSub (x ++ y) pat = true := by
  induction x with
  | nil => exact h
  | cons a as ih => simp [findSub, ih]

theorem strHasSub_middle (a b c : String) : strHasSub (a ++ b ++ c) b = true := by
  unfold strHasSub
  rw [String.data_append, String.data_append, List.append_assoc]
  exact findSub_append_left _ (findSub_of_takesFrom (takesFrom_self_append _ _))

theorem trivialCountMsg_names_count (n : Nat) (p : String) :
    strHasSub (trivialCountMsg n p) (toString n) = true := by
  unfold trivialCountMsg strHasSub
  rw [String.data_append, String.data_append, List.append_assoc]
  exact findSub_append_left _ (findSub_of_takesFrom (takesFrom_self_append _ _))

theorem trivialCountMsg_names_path (n : Nat) (p : String) :
    strHasSub (trivialCountMsg n p) p = true := by
  unfold trivialCountMsg strHasSub
  rw [String.data_append, String.data_append]
  apply findSub_append_left
  apply findSub_append_left
  apply findSub_of_takesFrom
  have h := takesFrom_self_append p.data []
  rwa [List.append_nil] at h

/-- Whether the first path is an ancestor (or equal) of the second:
`os.makedirs q` creates every such ancestor. -/
def pathLe : FsPath → FsPath → Bool
  | [], _ => true
  | _ :: _, [] => false
  | a :: p, b :: q => if a = b then pathLe p q else false

theorem pathLe_refl (p : FsPath) : pathLe p p = true := by
  induction p with
  | nil => rfl
  | cons a q ih => simp [pathLe, ih]

/-- The directory `d` is available: some already-created or pre-existing
directory `q` extends it (so `d` itself exists). -/
def covered (ex0 : FsPath → Bool) (created : List FsPath) (d : FsPath) : Prop :=
  (∃ q ∈ created, pathLe d q = true) ∨ (∃ q, pathLe d q = true ∧ ex0 q = true)

/-- Every file write in the trace goes into a directory already created
earlier in the trace or pre-existing in the initial filesystem. -/
def dirReadyAux (ex0 : FsPath → Bool) : List FsPath → List Event → Prop
  | _, [] => True
  | created, Event.makedirs p :: rest => dirReadyAux ex0 (p :: created) rest
  | created, Event.writeManifest d _ :: rest =>
    covered ex0 created d ∧ dirReadyAux ex0 created rest
  | created, Event.writeImage d :: rest =>
    covered ex0 created d ∧ dirReadyAux ex0 created rest

/-- `dirReadyAux` starting from an empty created set. -/
def dirReady (ex0 : FsPath → Bool) (t : List Event) : Prop := dirReadyAux ex0 [] t

def isFileWrite : Event → Bool
  | Event.makedirs _ => false
  | Event.writeManifest _ _ => true
  | Event.writeImage _ => true

def isMakedirs : Event → Bool
  | Event.makedirs _ => true
  | Event.writeManifest _ _ => false
  | Event.writeImage _ => false

/-- The literal reading of the full-tree-first invariant: once any file has
been written, no further directory of the output tree is created. -/
def noMkdirAfterWrite : List Event → Bool
  | [] => true
  | e :: rest =>
    (if isFileWrite e then !(rest.any isMakedirs) else true) && noMkdirAfterWrite rest

def isManifestWrite : Event → Bool
  | Event.writeManifest _ _ => true
  | Event.makedirs _ => false
  | Event.writeImage _ => false

/-- How many manifest writes a trace performs. -/
def manifestWrites (t : List Event) : Nat := (t.filter isManifestWrite).length

/-! ### Lemmas about the generators -/

theorem randomManifest_length (n : Nat) : (randomManifest n).length = 2 * n := by
  simp [randomManifest]

theorem participant_id_list_getD (n i : Nat) (h : i < 2 * n) :
    (participant_id_list n).getD i "" = "sub-RAND" ++ toString i := by
  unfold participant_id_list
  rw [List.getD_eq_getElem?_getD, List.getElem?_map, List.getElem?_range h]
  rfl

theorem session_id_list_getD (n i : Nat) (h : i < 2 * n) :
    (session_id_list n).getD i "" = "ses-M00" := by
  unfold session_id_list
  rw [List.getD_eq_getElem?_getD, List.getElem?_replicate]
  simp [h]

theorem diagnosis_list_random_getD (n i : Nat) (h : i < 2 * n) :
    (diagnosis_list_random n).getD i "" = if i < n then "AD" else "CN" := by
  unfold diagnosis_list_random
  rw [List.getD_eq_getElem?_getD, List.getElem?_append]
  by_cases hi : i < n
  · simp [List.length_replicate, hi, List.getElem?_replicate]
  · have h2 : i - n < n := by omega
    simp [List.length_replicate, hi, List.getElem?_replicate, h2]

theorem randomManifest_getD (n i : Nat) (h : i < 2 * n) :
    (randomManifest n).getD i ⟨"", "", "", 0, ""⟩ =
      { participant_id := "sub-RAND" ++ toString i
        session_id := "ses-M00"
        diagnosis := if i < n then "AD" else "CN"
        age := 60
        sex := "F" } := by
  unfold randomManifest
  rw [List.getD_eq_getElem?_getD, List.getElem?_map, List.getElem?_range h]
  simp only [Option.map_some', Option.getD_some]
  rw [participant_id_list_getD n i h, session_id_list_getD n i h,
    diagnosis_list_random_getD n i h]

theorem randomImages_filter_manifest (env : REnv) (out : String) :
    ∀ is : List Nat, ((randomImages env out is).1.filter isManifestWrite) = [] := by
  intro is
  induction is with
  | nil => rfl
  | cons i rest ih =>
    unfold randomImages
    by_cases hex : env.exists0 (subjDirRandom out i)
    · by_cases hsv : env.saveOk (subjDirRandom out i)
      · simp [hex, hsv, List.filter_append, ih, isManifestWrite]
      · simp [hex, hsv]
    · by_cases hsv : env.saveOk (subjDirRandom out i)
      · simp [hex, hsv, List.filter_append, ih, isManifestWrite, isMakedirs]
      · simp [hex, hsv, isManifestWrite]

theorem trivialLoop_cons (env : TEnv) (out : String) (df : List TsvRow)
    (i : Nat) (rest : List Nat) (rows : List MRow) :
    trivialLoop env out df (i :: rest) rows = ([], rows, some PyErr.typeError) := rfl

theorem trivialLoop_rows_length (env : TEnv) (out : String) (df : List TsvRow)
    (is : List Nat) (rows : List MRow)
    (h : (trivialLoop env out df is rows).2.2 = none) :
    (trivialLoop env out df is rows).2.1.length = rows.length + is.length := by
  cases is with
  | nil => simp [trivialLoop]
  | cons i rest => rw [trivialLoop_cons] at h; exact absurd h (by simp)

theorem trivial_trace_empty (env : TEnv) (out tsvPath : String) (n : Nat)
    (maskGiven : Bool) (h : 0 < n) :
    (generate_trivial_dataset env out tsvPath n maskGiven).trace = [] := by
  unfold generate_trivial_dataset
  by_cases h1 : n > (baseline_df env.tsv).length
  · simp [h1]
  · by_cases h2 : maskGiven = false
    · simp [h1, h2]
    · cases hr : List.range (2 * n) with
      | nil =>
        rw [List.range_eq_nil] at hr
        omega
      | cons i rest =>
        simp [h1, h2, hr, trivialLoop_cons]

theorem random_eq_empty (env : REnv) (out : String) (n : Nat)
    (hh : env.tsv.head? = none) :
    generate_random_dataset env out n =
      ⟨if env.exists0 [out, "subjects"] then [] else [Event.makedirs [out, "subjects"]],
       some PyErr.keyError⟩ := by
  unfold generate_random_dataset
  rw [hh]

theorem random_eq_find (env : REnv) (out : String) (n : Nat) (row : TsvRow)
    (hh : env.tsv.head? = some row)
    (hf : env.findImage row.participant_id row.session_id = false) :
    generate_random_dataset env out n =
      ⟨if env.exists0 [out, "subjects"] then [] else [Event.makedirs [out, "subjects"]],
       some PyErr.fileNotFound⟩ := by
  unfold generate_random_dataset
  rw [hh]
  simp [hf]

theorem random_eq_load (env : REnv) (out : String) (n : Nat) (row : TsvRow)
    (hh : env.tsv.head? = some row)
    (hf : env.findImage row.participant_id row.session_id = true)
    (hl : env.loadImg = false) :
    generate_random_dataset env out n =
      ⟨if env.exists0 [out, "subjects"] then [] else [Event.makedirs [out, "subjects"]],
       some PyErr.fileNotFound⟩ := by
  unfold generate_random_dataset
  rw [hh]
  simp [hf, hl]

theorem random_err_none (env : REnv) (out : String) (n : Nat)
    (hh : env.tsv.head? = none) :
    (generate_random_dataset env out n).err = some PyErr.keyError := by
  rw [random_eq_empty env out n hh]

theorem random_err_find (env : REnv) (out : String) (n : Nat) (row : TsvRow)
    (hh : env.tsv.head? = some row)
    (hf : env.findImage row.participant_id row.session_id = false) :
    (generate_random_dataset env out n).err = some PyErr.fileNotFound := by
  rw [random_eq_find env out n row hh hf]

theorem random_err_load (env : REnv) (out : String) (n : Nat) (row : TsvRow)
    (hh : env.tsv.head? = some row)
    (hf : env.findImage row.participant_id row.session_id = true)
    (hl : env.loadImg = false) :
    (generate_random_dataset env out n).err = some PyErr.fileNotFound := by
  rw [random_eq_load env out n row hh hf hl]

theorem random_success (env : REnv) (out : String) (n : Nat) (row : TsvRow)
    (hh : env.tsv.head? = some row)
    (hf : env.findImage row.participant_id row.session_id = true)
    (hl : env.loadImg = true) :
    generate_random_dataset env out n =
      ⟨(if env.exists0 [out, "subjects"] then []
          else [Event.makedirs [out, "subjects"]]) ++
        Event.writeManifest [out] (randomManifest n) ::
          (randomImages env out (List.range (2 * n))).1,
       (randomImages env out (List.range (2 * n))).2⟩ := by
  unfold generate_random_dataset
  rw [hh]
  simp [hf, hl]

theorem randomImages_ready (env : REnv) (out : String) :
    ∀ (is : List Nat) (created : List FsPath),
      dirReadyAux env.exists0 created (randomImages env out is).1 := by
  intro is
  induction is with
  | nil => intro created; trivial
  | cons i rest ih =>
    intro created
    unfold randomImages
    by_cases hex : env.exists0 (subjDirRandom out i)
    · by_cases hsv : env.saveOk (subjDirRandom out i)
      · simp only [hex, ite_true, hsv, List.nil_append]
        exact ⟨Or.inr ⟨subjDirRandom out i, pathLe_refl _, hex⟩, ih created⟩
      · simp only [hex, ite_true, hsv, Bool.false_eq_true, ite_false]
        trivial
    · by_cases hsv : env.saveOk (subjDirRandom out i)
      · simp only [hex, Bool.false_eq_true, ite_false, hsv, ite_true,
          List.singleton_append]
        show dirReadyAux env.exists0 (subjDirRandom out i :: created) _
        exact ⟨Or.inl ⟨subjDirRandom out i, List.mem_cons_self _ _, pathLe_refl _⟩,
          ih _⟩
      · simp only [hex, Bool.false_eq_true, ite_false, hsv]
        show dirReadyAux env.exists0 (subjDirRandom out i :: created) []
        trivial

theorem generate_random_ready (env : REnv) (out : String) (n : Nat) :
    dirReady env.exists0 (generate_random_dataset env out n).trace := by
  unfold dirReady generate_random_dataset
  by_cases hex : env.exists0 [out, "subjects"]
  · simp only [hex, ite_true]
    cases hh : env.tsv.head? with
    | none => trivial
    | some row =>
      by_cases hf : env.findImage row.participant_id row.session_id = false
      · simp only [hf, ite_true]; trivial
      · simp only [hf, ite_false]
        by_cases hl : env.loadImg = false
        · simp only [hl, ite_true]; trivial
        · simp only [hl, ite_false, List.nil_append]
          refine ⟨Or.inr ⟨[out, "subjects"], ?_, hex⟩, randomImages_ready env out _ _⟩
          simp [pathLe]
  · simp only [hex, Bool.false_eq_true, ite_false]
    cases hh : env.tsv.head? with
    | none =>
      show dirReadyAux env.exists0 ([out, "subjects"] :: []) []
      trivial
    | some row =>
      by_cases hf : env.findImage row.participant_id row.session_id = false
      · simp only [hf, ite_true]
        show dirReadyAux env.exists0 ([out, "subjects"] :: []) []
        trivial
      · simp only [hf, ite_false]
        by_cases hl : env.loadImg = false
        · simp only [hl, ite_true]
          show dirReadyAux env.exists0 ([out, "subjects"] :: []) []
          trivial
        · simp only [hl, ite_false, List.singleton_append]
          show dirReadyAux env.exists0 ([out, "subjects"] :: [])
            (Event.writeManifest [out] (randomManifest n) :: _)
          refine ⟨Or.inl ⟨[out, "subjects"], List.mem_cons_self _ _, ?_⟩,
            randomImages_ready env out _ _⟩
          simp [pathLe]

/-! ## Concrete instances used by the claim witnesses -/

deriving instance DecidableEq for Except

/-- A one-subject input manifest. -/
def tsvOne : List TsvRow := [⟨"sub-01", "ses-M00"⟩]

/-- A trivial-generator environment over one baseline subject, an initially
empty output filesystem, and all external loads succeeding. -/
def envTOne : TEnv := ⟨tsvOne, fun _ => false, fun _ _ => true, fun _ => true, fun _ => true⟩

/-- A random-generator environment over one subject row, an initially empty
output filesystem, and all loads and saves succeeding. -/
def envROne : REnv := ⟨tsvOne, fun _ => false, fun _ _ => true, true, fun _ => true⟩

/-- A random-generator environment whose input manifest is empty. -/
def envREmpty : REnv := ⟨[], fun _ => false, fun _ _ => true, true, fun _ => true⟩

/-- A random-generator environment whose source volume cannot be located. -/
def envRNoFind : REnv := ⟨tsvOne, fun _ => false, fun _ _ => false, true, fun _ => true⟩

/-- A random-generator environment whose source volume cannot be loaded. -/
def envRNoLoad : REnv := ⟨tsvOne, fun _ => false, fun _ _ => true, false, fun _ => true⟩

/-- An options record carrying each of the three legacy keys of claim C7. -/
def oC7 : Obj :=
  ⟨[("preprocessing", JVal.str "t1-linear"), ("mri_plane", JVal.num 0),
    ("use_cpu", JVal.bool true), ("hippocampus_roi", JVal.bool true)], by decide⟩

/-- The migrated form of `oC7`. -/
def dC7 : Obj :=
  ⟨[("preprocessing", JVal.str "t1-linear"), ("use_cpu", JVal.bool true),
    ("dropout", JVal.num 0), ("slice_direction", JVal.num 0),
    ("mode", JVal.str "roi"), ("mode_task", JVal.str "cnn"),
    ("use_gpu", JVal.bool false)], by decide⟩

/-- An options record exercising most of the legacy renames at once. -/
def oC8 : Obj :=
  ⟨[("preprocessing", JVal.str "linear"), ("mode", JVal.str "subject"),
    ("use_cpu", JVal.bool false), ("unnormalize", JVal.bool false),
    ("use_extracted_slices", JVal.bool true), ("train_autoencoder", JVal.bool true)],
    by decide⟩

/-- The migrated form of `oC8`. -/
def dC8 : Obj :=
  ⟨[("preprocessing", JVal.str "t1-linear"), ("mode", JVal.str "image"),
    ("use_cpu", JVal.bool false), ("unnormalize", JVal.bool false),
    ("use_extracted_slices", JVal.bool true), ("train_autoencoder", JVal.bool true),
    ("dropout", JVal.num 0), ("mode_task", JVal.str "autoencoder"),
    ("use_gpu", JVal.bool true), ("minmaxnormalization", JVal.bool true),
    ("prepare_dl", JVal.bool true)], by decide⟩

/-- An already-migrated configuration record, as serialised. -/
def rC6 : Obj :=
  ⟨[("dropout", JVal.num 0), ("preprocessing", JVal.str "t1-linear"),
    ("mode", JVal.str "image"), ("mode_task", JVal.str "cnn"),
    ("gpu", JVal.bool true), ("caps_dir", JVal.str "/caps")], by decide⟩

/-- The record obtained by round-tripping `rC6` through the JSON side-car. -/
def dC6 : Obj :=
  ⟨[("dropout", JVal.num 0), ("preprocessing", JVal.str "t1-linear"),
    ("mode", JVal.str "image"), ("mode_task", JVal.str "cnn"),
    ("gpu", JVal.bool true), ("unknown_arg", JVal.str "[]")], by decide⟩

/-- A JSON side-car record carrying the computational option `gpu`. -/
def jC10 : Obj :=
  ⟨[("gpu", JVal.bool true), ("preprocessing", JVal.str "t1-linear"),
    ("mode", JVal.str "image")], by decide⟩

/-- The options record `read_json` produces from `jC10` in test mode. -/
def dC10 : Obj :=
  ⟨[("gpu", JVal.bool true), ("preprocessing", JVal.str "t1-linear"),
    ("mode", JVal.str "image"), ("dropout", JVal.num 0),
    ("mode_task", JVal.str "cnn")], by decide⟩

/-! ## Claim theorems -/

/-- Claim C1, evidence of the code bug: on every valid invocation of the
trivial-dataset generator (positive count within the number of baseline
subjects, mask directory provided), line 142 applies the string-formatting
operator `%` to a one-element list, so the first loop iteration raises
`TypeError` before any volume, directory or manifest is produced — instead
of writing the `2*count` attenuated volumes and the alternating manifest the
claim (and the function's own docstring) describe. -/
theorem claimC1_trivial_generator_crashes (env : TEnv) (out tsvPath : String)
    (n : Nat) (h0 : 0 < n) (hlen : n ≤ (baseline_df env.tsv).length) :
    generate_trivial_dataset env out tsvPath n true =
      ⟨[], some PyErr.typeError⟩ := by
  have h1 : ¬ n > (baseline_df env.tsv).length := by omega
  cases hr : List.range (2 * n) with
  | nil =>
    rw [List.range_eq_nil] at hr
    omega
  | cons i rest =>
    simp [generate_trivial_dataset, h1, hr, trivialLoop_cons]

/-- Witness for C1 at a concrete valid invocation: one baseline subject,
`n_subjects = 1`, mask directory provided. -/
theorem claimC1_witness :
    generate_trivial_dataset envTOne "out" "in.tsv" 1 true =
      ⟨[], some PyErr.typeError⟩ :=
  claimC1_trivial_generator_crashes envTOne "out" "in.tsv" 1 (by decide) (by decide)

/-- Claim C2: for every positive subject count, the random generator's
output manifest has `2*n` rows; row `i` carries participant `sub-RAND<i>`,
session `ses-M00`, diagnosis `AD` for the first `n` rows and `CN` for the
rest, age 60 and sex `F`; and every completed run writes exactly this
manifest into the output directory. -/
theorem claimC2_random_manifest (n : Nat) (h : 0 < n) :
    (randomManifest n).length = 2 * n ∧
    (∀ i, i < 2 * n →
      (randomManifest n).getD i ⟨"", "", "", 0, ""⟩ =
        { participant_id := "sub-RAND" ++ toString i
          session_id := "ses-M00"
          diagnosis := if i < n then "AD" else "CN"
          age := 60
          sex := "F" }) ∧
    (∀ (env : REnv) (out : String),
      (generate_random_dataset env out n).err = none →
      Event.writeManifest [out] (randomManifest n) ∈
        (generate_random_dataset env out n).trace) := by
  refine ⟨randomManifest_length n, fun i hi => randomManifest_getD n i hi, ?_⟩
  intro env out herr
  cases hh : env.tsv.head? with
  | none =>
    rw [random_err_none env out n hh] at herr
    exact absurd herr (by simp)
  | some row =>
    by_cases hf : env.findImage row.participant_id row.session_id = false
    · rw [random_err_find env out n row hh hf] at herr
      exact absurd herr (by simp)
    · have hft : env.findImage row.participant_id row.session_id = true := by
        simpa using hf
      by_cases hl : env.loadImg = false
      · rw [random_err_load env out n row hh hft hl] at herr
        exact absurd herr (by simp)
      · have hlt : env.loadImg = true := by simpa using hl
        rw [random_success env out n row hh hft hlt]
        exact List.mem_append_right _ (List.mem_cons_self _ _)

/-- Witness for C2 at `n = 2`: the four concrete manifest rows. -/
theorem claimC2_witness :
    (randomManifest 2).getD 1 ⟨"", "", "", 0, ""⟩ =
      ⟨"sub-RAND1", "ses-M00", "AD", 60, "F"⟩ ∧
    (randomManifest 2).getD 2 ⟨"", "", "", 0, ""⟩ =
      ⟨"sub-RAND2", "ses-M00", "CN", 60, "F"⟩ := by
  constructor
  · rw [(claimC2_random_manifest 2 (by decide)).2.1 1 (by decide)]
    decide
  · rw [(claimC2_random_manifest 2 (by decide)).2.1 2 (by decide)]
    decide

/-- Claim C3, counterexample: with one available baseline subject and a
requested count of 2, the trivial generator does raise the invalid-input
error before creating anything, but its message interpolates the requested
count and the manifest path — the available count (`1`) appears nowhere in
the message, contrary to the claim that it names both numbers. -/
theorem claimC3_counterexample :
    generate_trivial_dataset envTOne "out" "data.tsv" 2 true =
      ⟨[], some (PyErr.valueError (trivialCountMsg 2 "data.tsv"))⟩ ∧
    (baseline_df envTOne.tsv).length = 1 ∧
    strHasSub (trivialCountMsg 2 "data.tsv") "1" = false := by
  refine ⟨?_, by decide, by decide⟩
  decide

/-- Claim C3 as amended: whenever the requested count exceeds the number of
distinct baseline subjects, the trivial generator raises a `ValueError`
whose message names the requested count and the input manifest path (not
the available count), and creates no output directory or file before
raising. -/
theorem claimC3_amended (env : TEnv) (out tsvPath : String) (n : Nat)
    (maskGiven : Bool) (h : (baseline_df env.tsv).length < n) :
    generate_trivial_dataset env out tsvPath n maskGiven =
      ⟨[], some (PyErr.valueError (trivialCountMsg n tsvPath))⟩ ∧
    strHasSub (trivialCountMsg n tsvPath) (toString n) = true ∧
    strHasSub (trivialCountMsg n tsvPath) tsvPath = true := by
  refine ⟨?_, trivialCountMsg_names_count n tsvPath, trivialCountMsg_names_path n tsvPath⟩
  unfold generate_trivial_dataset
  rw [if_pos (by omega)]

/-- Witness for the amended C3 at a concrete input. -/
theorem claimC3_witness :
    generate_trivial_dataset envTOne "out" "data.tsv" 2 true =
      ⟨[], some (PyErr.valueError (trivialCountMsg 2 "data.tsv"))⟩ ∧
    strHasSub (trivialCountMsg 2 "data.tsv") (toString 2) = true ∧
    strHasSub (trivialCountMsg 2 "data.tsv") "data.tsv" = true :=
  claimC3_amended envTOne "out" "data.tsv" 2 true (by decide)

/-- Claim C4, random half (helper): every manifest event of a random run
carries the complete `2*n`-row manifest, and there is at most one. -/
theorem random_manifest_events (env : REnv) (out : String) (n : Nat) :
    (∀ p rows, Event.writeManifest p rows ∈ (generate_random_dataset env out n).trace →
      rows = randomManifest n) ∧
    manifestWrites (generate_random_dataset env out n).trace ≤ 1 := by
  cases hh : env.tsv.head? with
  | none =>
    rw [random_eq_empty env out n hh]
    constructor
    · intro p rows hm
      by_cases hex : env.exists0 [out, "subjects"] <;> simp [hex] at hm
    · by_cases hex : env.exists0 [out, "subjects"] <;>
        simp [hex, manifestWrites, isManifestWrite]
  | some row =>
    by_cases hf : env.findImage row.participant_id row.session_id = false
    · rw [random_eq_find env out n row hh hf]
      constructor
      · intro p rows hm
        by_cases hex : env.exists0 [out, "subjects"] <;> simp [hex] at hm
      · by_cases hex : env.exists0 [out, "subjects"] <;>
          simp [hex, manifestWrites, isManifestWrite]
    · have hft : env.findImage row.participant_id row.session_id = true := by
        simpa using hf
      by_cases hl : env.loadImg = false
      · rw [random_eq_load env out n row hh hft hl]
        constructor
        · intro p rows hm
          by_cases hex : env.exists0 [out, "subjects"] <;> simp [hex] at hm
        · by_cases hex : env.exists0 [out, "subjects"] <;>
            simp [hex, manifestWrites, isManifestWrite]
      · have hlt : env.loadImg = true := by simpa using hl
        rw [random_success env out n row hh hft hlt]
        have hfil := randomImages_filter_manifest env out (List.range (2 * n))
        constructor
        · intro p rows hm
          rcases List.mem_append.mp hm with h1 | h2
          · by_cases hex : env.exists0 [out, "subjects"] <;> simp [hex] at h1
          · rcases List.mem_cons.mp h2 with h3 | h4
            · injection h3 with hp hrows
            · rw [List.filter_eq_nil_iff] at hfil
              have hc := hfil _ h4
              simp [isManifestWrite] at hc
        · by_cases hex : env.exists0 [out, "subjects"] <;>
            simp [hex, manifestWrites, List.filter_append, isManifestWrite, hfil]

/-- Claim C4, trivial half (helper): every manifest event of a trivial run
carries a complete `2*n`-row manifest, and there is at most one. -/
theorem trivial_manifest_events (env : TEnv) (out tsvPath : String) (k : Nat)
    (maskGiven : Bool) :
    (∀ p rows, Event.writeManifest p rows ∈
      (generate_trivial_dataset env out tsvPath k maskGiven).trace →
      rows.length = 2 * k) ∧
    manifestWrites (generate_trivial_dataset env out tsvPath k maskGiven).trace ≤ 1 := by
  unfold generate_trivial_dataset
  by_cases h1 : k > (baseline_df env.tsv).length
  · constructor
    · intro p rows hm
      simp [h1] at hm
    · simp [h1, manifestWrites]
  · by_cases h2 : maskGiven = false
    · constructor
      · intro p rows hm
        simp [h1, h2] at hm
      · simp [h1, h2, manifestWrites]
    · cases hr : List.range (2 * k) with
      | nil =>
        have hk0 : 2 * k = 0 := by rwa [List.range_eq_nil] at hr
        constructor
        · intro p rows hm
          simp [h1, h2, hr, trivialLoop] at hm
          rw [hm.2, hk0]
          rfl
        · simp [h1, h2, hr, trivialLoop, manifestWrites, isManifestWrite]
      | cons i rest =>
        constructor
        · intro p rows hm
          simp [h1, h2, hr, trivialLoop_cons] at hm
        · simp [h1, h2, hr, trivialLoop_cons, manifestWrites]

/-- Claim C4: in every run of either generator, under any behaviour of the
external IO (including failures at any point), the output manifest is
written at most once, and any written manifest carries all `2*count` rows —
no truncated manifest is ever produced, because each generator performs its
single manifest write only after assembling all rows. -/
theorem claimC4_manifest_never_truncated (env : REnv) (out : String) (n : Nat)
    (envT : TEnv) (out2 tsvPath : String) (k : Nat) (maskGiven : Bool) :
    (∀ p rows, Event.writeManifest p rows ∈ (generate_random_dataset env out n).trace →
      rows = randomManifest n) ∧
    manifestWrites (generate_random_dataset env out n).trace ≤ 1 ∧
    (∀ p rows, Event.writeManifest p rows ∈
      (generate_trivial_dataset envT out2 tsvPath k maskGiven).trace →
      rows.length = 2 * k) ∧
    manifestWrites (generate_trivial_dataset envT out2 tsvPath k maskGiven).trace ≤ 1 :=
  ⟨(random_manifest_events env out n).1, (random_manifest_events env out n).2,
   (trivial_manifest_events envT out2 tsvPath k maskGiven).1,
   (trivial_manifest_events envT out2 tsvPath k maskGiven).2⟩

/-- Witness for C4: a concrete completed random run writes exactly the full
two-row manifest, and both concrete runs write at most one manifest. -/
theorem claimC4_witness :
    randomManifest 1 = randomManifest 1 ∧
    manifestWrites (generate_random_dataset envROne "out" 1).trace ≤ 1 ∧
    manifestWrites (generate_trivial_dataset envTOne "out" "in.tsv" 1 true).trace ≤ 1 :=
  ⟨(claimC4_manifest_never_truncated envROne "out" 1 envTOne "out" "in.tsv" 1 true).1
      ["out"] (randomManifest 1) (by decide),
   (claimC4_manifest_never_truncated envROne "out" 1 envTOne "out" "in.tsv" 1 true).2.1,
   (claimC4_manifest_never_truncated envROne "out" 1 envTOne "out" "in.tsv" 1 true).2.2.2⟩

/-- Claim C5, counterexample: with one subject and an initially empty output
filesystem, the random generator writes the manifest file `data.tsv` (trace
index 1) before creating the first per-subject directory (trace index 2) —
the full output tree is not created before the first file write. -/
theorem claimC5_counterexample :
    noMkdirAfterWrite (generate_random_dataset envROne "out" 1).trace = false ∧
    (generate_random_dataset envROne "out" 1).trace.take 3 =
      [Event.makedirs ["out", "subjects"],
       Event.writeManifest ["out"] (randomManifest 1),
       Event.makedirs ["out", "subjects", "sub-RAND0", "ses-M00", "t1_linear"]] := by
  constructor
  · decide
  · decide

/-- Claim C5 as amended: in every run of either generator (with a positive
count for the trivial generator), every file write goes into a directory
that was created earlier in the same run or already existed — but the full
directory tree is not created up front; per-subject directories are created
interleaved with the file writes. -/
theorem claimC5_amended (env : REnv) (out : String) (n : Nat) (envT : TEnv)
    (out2 tsvPath : String) (k : Nat) (maskGiven : Bool) (hk : 0 < k) :
    dirReady env.exists0 (generate_random_dataset env out n).trace ∧
    dirReady envT.exists0
      (generate_trivial_dataset envT out2 tsvPath k maskGiven).trace := by
  refine ⟨generate_random_ready env out n, ?_⟩
  rw [dirReady, trivial_trace_empty envT out2 tsvPath k maskGiven hk]
  trivial

/-- Witness for the amended C5 at concrete runs. -/
theorem claimC5_witness :
    dirReady envROne.exists0 (generate_random_dataset envROne "out" 1).trace ∧
    dirReady envTOne.exists0
      (generate_trivial_dataset envTOne "out" "in.tsv" 1 true).trace :=
  claimC5_amended envROne "out" 1 envTOne "out" "in.tsv" 1 true (by decide)

/-- Claim C9: the random generator fails loudly — an empty input manifest
makes the first-row access raise (`KeyError`), and a source volume that
cannot be located or loaded propagates a resource-not-found failure; in
each case the run ends with that error rather than returning normally. -/
theorem claimC9_random_fails_loudly (env : REnv) (out : String) (n : Nat) :
    (env.tsv = [] →
      (generate_random_dataset env out n).err = some PyErr.keyError) ∧
    (∀ row, env.tsv.head? = some row →
      env.findImage row.participant_id row.session_id = false →
      (generate_random_dataset env out n).err = some PyErr.fileNotFound) ∧
    (∀ row, env.tsv.head? = some row →
      env.findImage row.participant_id row.session_id = true →
      env.loadImg = false →
      (generate_random_dataset env out n).err = some PyErr.fileNotFound) := by
  refine ⟨?_, ?_, ?_⟩
  · intro he
    exact random_err_none env out n (by rw [he]; rfl)
  · intro row hrow hf
    exact random_err_find env out n row hrow hf
  · intro row hrow hf hl
    exact random_err_load env out n row hrow hf hl

/-- Witness for C9: the three failure modes at concrete environments. -/
theorem claimC9_witness :
    (generate_random_dataset envREmpty "out" 1).err = some PyErr.keyError ∧
    (generate_random_dataset envRNoFind "out" 1).err = some PyErr.fileNotFound ∧
    (generate_random_dataset envRNoLoad "out" 1).err = some PyErr.fileNotFound :=
  ⟨(claimC9_random_fails_loudly envREmpty "out" 1).1 rfl,
   (claimC9_random_fails_loudly envRNoFind "out" 1).2.1 ⟨"sub-01", "ses-M00"⟩ rfl rfl,
   (claimC9_random_fails_loudly envRNoLoad "out" 1).2.2 ⟨"sub-01", "ses-M00"⟩ rfl rfl rfl⟩

/-- Claim C6: serialising a configuration record with `commandline_to_json`
and deserialising the result with `read_json` (test mode off, on an empty
initial options namespace) reproduces every field of the record except the
deliberately-dropped path keys `caps_dir`, `tsv_path` and `output_dir`. The
hypotheses say the record is a genuine already-migrated configuration
record (so no legacy rename applies, matching the claim's caveat): it has
no `func` bookkeeping key, a set non-null `dropout`, a
modern `preprocessing` value, a `mode` other than `subject`, a `mode_task`,
and none of the legacy keys. -/
theorem claimC6_roundtrip (r : Obj) (u : JVal) (k : String) (d : Obj)
    (hfunc : oget r "func" = none)
    (hdrop : ∃ w, oget r "dropout" = some w ∧ w ≠ JVal.null)
    (hprep : ∃ p, oget r "preprocessing" = some p ∧
      p ≠ JVal.str "mni" ∧ p ≠ JVal.str "linear")
    (hmri : oget r "mri_plane" = none)
    (hhip : oget r "hippocampus_roi" = none)
    (hppa : oget r "pretrained_path" = none)
    (hpdi : oget r "pretrained_difference" = none)
    (hmode : ∃ m, oget r "mode" = some m ∧ m ≠ JVal.str "subject")
    (hmt : ohas r "mode_task" = true)
    (hnet : oget r "network_type" = none)
    (hcpu : oget r "use_cpu" = none)
    (hunn : oget r "unnormalize" = none)
    (hxs : oget r "use_extracted_slices" = none)
    (hxp : oget r "use_extracted_patches" = none)
    (hxr : oget r "use_extracted_roi" = none)
    (hk1 : k ≠ "caps_dir") (hk2 : k ≠ "tsv_path") (hk3 : k ≠ "output_dir")
    (hk4 : k ≠ "unknown_arg")
    (hread : read_json false objEmpty (commandline_to_json r u) = Except.ok d) :
    oget d k = oget r k := by
  have hd0 : ∀ x, oget (applyItems false objEmpty
      (commandline_to_json r u).entries) x = oget (commandline_to_json r u) x := by
    intro x
    rw [oget_loop_of_obj false objEmpty (commandline_to_json r u) x (Or.inl rfl)]
    cases hj : oget (commandline_to_json r u) x with
    | some v => rfl
    | none => rfl
  have hsame : ∀ x, x ≠ "unknown_arg" → x ≠ "func" → x ≠ "caps_dir" →
      x ≠ "tsv_path" → x ≠ "output_dir" →
      oget (applyItems false objEmpty (commandline_to_json r u).entries) x =
        oget r x := by
    intro x h1 h2 h3 h4 h5
    rw [hd0, oget_commandline_to_json, if_neg h1, if_neg (by simp [h2, h3, h4, h5])]
  have hI : MigratedInv (applyItems false objEmpty (commandline_to_json r u).entries) := by
    constructor
    case dropout_set =>
      obtain ⟨w, hw, hw0⟩ := hdrop
      exact ⟨w, by
        rw [hsame _ (by decide) (by decide) (by decide) (by decide) (by decide)]
        exact hw, hw0⟩
    case preproc_set =>
      obtain ⟨p, hp, hp1, hp2⟩ := hprep
      exact ⟨p, by
        rw [hsame _ (by decide) (by decide) (by decide) (by decide) (by decide)]
        exact hp, hp1, hp2⟩
    case mri_none =>
      rw [hsame _ (by decide) (by decide) (by decide) (by decide) (by decide)]
      exact hmri
    case hippo_none =>
      rw [hsame _ (by decide) (by decide) (by decide) (by decide) (by decide)]
      exact hhip
    case ppath_none =>
      rw [hsame _ (by decide) (by decide) (by decide) (by decide) (by decide)]
      exact hppa
    case pdiff_none =>
      rw [hsame _ (by decide) (by decide) (by decide) (by decide) (by decide)]
      exact hpdi
    case mode_set =>
      obtain ⟨m, hm, hm1⟩ := hmode
      refine ⟨m, ?_, hm1, ?_⟩
      · rw [hsame _ (by decide) (by decide) (by decide) (by decide) (by decide)]
        exact hm
      · intro hmp
        apply ohas_false_of_oget_none
        rw [hsame _ (by decide) (by decide) (by decide) (by decide) (by decide)]
        exact hnet
    case mtask_has =>
      rw [ohas_eq_isSome,
        hsame _ (by decide) (by decide) (by decide) (by decide) (by decide),
        ← ohas_eq_isSome]
      exact hmt
    case cpu_gpu =>
      intro v hv
      rw [hsame _ (by decide) (by decide) (by decide) (by decide) (by decide), hcpu] at hv
      exact absurd hv (by simp)
    case unnorm_mm =>
      intro v hv
      rw [hsame _ (by decide) (by decide) (by decide) (by decide) (by decide), hunn] at hv
      exact absurd hv (by simp)
    case extr_pd =>
      intro v hv
      unfold lastExtracted at hv
      rw [hsame _ (by decide) (by decide) (by decide) (by decide) (by decide), hxr,
        hsame _ (by decide) (by decide) (by decide) (by decide) (by decide), hxp,
        hsame _ (by decide) (by decide) (by decide) (by decide) (by decide), hxs] at hv
      exact absurd hv (by simp)
  have hpass := legacyPass_of_inv hI
  unfold read_json at hread
  have hdd : applyItems false objEmpty (commandline_to_json r u).entries = d := by
    have hc := hpass.symm.trans hread
    injection hc
  rw [← hdd]
  by_cases hkf : k = "func"
  · subst hkf
    rw [hd0, oget_commandline_to_json, if_neg (by decide), if_pos (Or.inl rfl), hfunc]
  · rw [hsame k hk4 hkf hk1 hk2 hk3]

/-- Witness for C6: round-tripping a concrete migrated record reproduces
its `gpu` field (while the path key `caps_dir` is dropped). -/
theorem claimC6_witness : oget dC6 "gpu" = oget rC6 "gpu" :=
  claimC6_roundtrip rC6 (JVal.str "[]") "gpu" dC6
    (by decide) ⟨JVal.num 0, by decide, by decide⟩
    ⟨JVal.str "t1-linear", by decide, by decide, by decide⟩
    (by decide) (by decide) (by decide) (by decide)
    ⟨JVal.str "image", by decide, by decide⟩
    (by decide) (by decide) (by decide) (by decide) (by decide) (by decide)
    (by decide) (by decide) (by decide) (by decide) (by decide) (by decide)

/-- Claim C7: on a record the retro-compatibility pass accepts, a present
`mri_plane` key becomes `slice_direction` with the same value and is
deleted; a present boolean `use_cpu` makes `use_gpu` its negation; and a
present `hippocampus_roi` key derives `mode = "roi"`, per the fixed rename
table. -/
theorem claimC7_legacy_renames {o d : Obj} (hpass : legacyPass o = Except.ok d) :
    (∀ v, oget o "mri_plane" = some v →
      oget d "slice_direction" = some v ∧ oget d "mri_plane" = none) ∧
    (∀ b, oget o "use_cpu" = some (JVal.bool b) →
      oget d "use_gpu" = some (JVal.bool (!b))) ∧
    (ohas o "hippocampus_roi" = true → oget d "mode" = some (JVal.str "roi")) := by
  have hInv := legacyPass_inv hpass
  unfold legacyPass at hpass
  cases hA : stepPreproc (stepDropout o) with
  | error e => rw [hA] at hpass; exact Except.noConfusion hpass
  | ok o1 =>
    rw [hA] at hpass
    have hpass2 : (match stepMode (stepPretrainedDiff (stepPretrainedPath
        (stepHippo (stepMriPlane o1)))) with
      | Except.error e => Except.error e
      | Except.ok o3 =>
        Except.ok (stepExtracted (stepUnnormalize (stepUseCpu (stepModeTask o3))))) =
        Except.ok d := hpass
    cases hB : stepMode (stepPretrainedDiff (stepPretrainedPath
        (stepHippo (stepMriPlane o1)))) with
    | error e => rw [hB] at hpass2; exact Except.noConfusion hpass2
    | ok o3 =>
      rw [hB] at hpass2
      have hd : stepExtracted (stepUnnormalize (stepUseCpu (stepModeTask o3))) = d := by
        injection hpass2
      subst hd
      refine ⟨?_, ?_, ?_⟩
      · intro v hv
        refine ⟨?_, hInv.mri_none⟩
        have h1 : oget o1 "mri_plane" = some v := by
          rw [stepPreproc_frame hA (by decide), stepDropout_frame _ _ (by decide), hv]
        rw [stepExtracted_frame _ (by decide), stepUnnormalize_frame _ (by decide),
          stepUseCpu_frame _ (by decide), stepModeTask_frame _ (by decide),
          stepMode_frame hB (by decide) (by decide) (by decide),
          stepPretrainedDiff_frame _ (by decide) (by decide),
          stepPretrainedPath_frame _ (by decide) (by decide),
          stepHippo_frame _ (by decide) (by decide), stepMriPlane_set h1]
      · intro b hb
        have hvT : oget (stepModeTask o3) "use_cpu" = some (JVal.bool b) := by
          rw [stepModeTask_frame _ (by decide),
            stepMode_frame hB (by decide) (by decide) (by decide),
            stepPretrainedDiff_frame _ (by decide) (by decide),
            stepPretrainedPath_frame _ (by decide) (by decide),
            stepHippo_frame _ (by decide) (by decide),
            stepMriPlane_frame _ (by decide) (by decide),
            stepPreproc_frame hA (by decide), stepDropout_frame _ _ (by decide), hb]
        rw [stepExtracted_frame _ (by decide), stepUnnormalize_frame _ (by decide),
          stepUseCpu_set hvT]
        rfl
      · intro hh
        obtain ⟨w, hw⟩ := Option.isSome_iff_exists.mp (by
          rw [← ohas_eq_isSome]; exact hh)
        have h1 : oget (stepMriPlane o1) "hippocampus_roi" = some w := by
          rw [stepMriPlane_frame _ (by decide) (by decide),
            stepPreproc_frame hA (by decide), stepDropout_frame _ _ (by decide), hw]
        have h2 : oget (stepHippo (stepMriPlane o1)) "mode" = some (JVal.str "roi") :=
          stepHippo_mode (ohas_true_of_oget_some h1)
        have h3 : oget (stepPretrainedDiff (stepPretrainedPath
            (stepHippo (stepMriPlane o1)))) "mode" = some (JVal.str "roi") := by
          rw [stepPretrainedDiff_frame _ (by decide) (by decide),
            stepPretrainedPath_frame _ (by decide) (by decide), h2]
        have h4 : stepMode (stepPretrainedDiff (stepPretrainedPath
            (stepHippo (stepMriPlane o1)))) =
            Except.ok (stepPretrainedDiff (stepPretrainedPath
              (stepHippo (stepMriPlane o1)))) :=
          stepMode_id h3 (by decide) (fun hc => absurd hc (by decide))
            (fun hc => absurd hc (by decide))
        have ho3 : o3 = stepPretrainedDiff (stepPretrainedPath
            (stepHippo (stepMriPlane o1))) := by
          have hc := hB.symm.trans h4
          injection hc
        rw [stepExtracted_frame _ (by decide), stepUnnormalize_frame _ (by decide),
          stepUseCpu_frame _ (by decide), stepModeTask_frame _ (by decide), ho3, h3]

/-- Witness for C7 at a concrete record carrying `mri_plane = 0`,
`use_cpu = true` and `hippocampus_roi`. -/
theorem claimC7_witness :
    oget dC7 "slice_direction" = some (JVal.num 0) ∧
    oget dC7 "mri_plane" = none ∧
    oget dC7 "use_gpu" = some (JVal.bool false) ∧
    oget dC7 "mode" = some (JVal.str "roi") := by
  have h := claimC7_legacy_renames (o := oC7) (d := dC7) (by decide)
  exact ⟨(h.1 (JVal.num 0) (by decide)).1, (h.1 (JVal.num 0) (by decide)).2,
    h.2.1 true (by decide), h.2.2 (by decide)⟩

/-- Claim C8: the retro-compatibility rename/derivation pass is idempotent —
a record it has produced once is a fixed point of a second application. -/
theorem claimC8_legacy_idempotent {o d : Obj} (h : legacyPass o = Except.ok d) :
    legacyPass d = Except.ok d :=
  legacyPass_of_inv (legacyPass_inv h)

/-- Witness for C8 at a concrete record exercising the renames. -/
theorem claimC8_witness : legacyPass dC8 = Except.ok dC8 :=
  claimC8_legacy_idempotent (o := oC8) (by decide)

/-- Claim C10: for every JSON side-car record with a `gpu`, `num_workers` or
`num_threads` key (none of which is a test-mode evaluation parameter),
`read_json` sets that attribute on the returned options to the JSON value:
the computational-option skip list in the loop has no effect, because its
`if` statement has an empty body and is not chained to the assignment
conditional. -/
theorem claimC10_computational_skip_dead (test : Bool) (options json : Obj)
    (key : String) (v : JVal) (d : Obj)
    (hkey : key ∈ computational_options)
    (hjson : oget json key = some v)
    (hread : read_json test options json = Except.ok d) :
    oget d key = some v := by
  unfold read_json at hread
  have hj : dget json.entries key = some v := hjson
  simp only [computational_options, List.mem_cons, List.not_mem_nil, or_false] at hkey
  rcases hkey with hk | hk | hk <;> subst hk
  · rw [legacyPass_frame hread (by decide),
      oget_applyItems_mem test options json.entries _ v json.nodup hj (Or.inr (by decide))]
  · rw [legacyPass_frame hread (by decide),
      oget_applyItems_mem test options json.entries _ v json.nodup hj (Or.inr (by decide))]
  · rw [legacyPass_frame hread (by decide),
      oget_applyItems_mem test options json.entries _ v json.nodup hj (Or.inr (by decide))]

/-- Witness for C10: even in test mode, reading a side-car with
`gpu = true` sets `gpu` on the returned options. -/
theorem claimC10_witness : oget dC10 "gpu" = some (JVal.bool true) :=
  claimC10_computational_skip_dead true objEmpty jC10 "gpu" (JVal.bool true) dC10
    (by decide) (by decide) (by decide)

end ADDL
